import Mathlib

/-!
Verification development for the domarkx repository.

This file gives a shallow embedding, in Lean 4, of the core components of the
domarkx code base:

* the virtual/real path translation table (src/domarkx/utils/agent_fs_map.py),
* the tool-call dispatcher (src/domarkx/tool_call/roo_code/tool.py),
* the search/replace patch algorithm (src/domarkx/tool_call/roo_code/tools/apply_diff.py),
* the error-tolerant command-tag extraction (src/domarkx/tool_call/roo_code/parser.py),
* the chat-document model: inclusion resolution, structural parsing and message
  appending (src/domarkx/utils/chat_doc_parser.py).

Conventions of the embedding:

* Python strings are Lean `String`s; all manipulation is done through explicit
  structurally-recursive helpers over `List Char` so that every definition
  evaluates by kernel reduction.
* Python `\s` / `str.strip()` whitespace is modelled by `Char.isWhitespace`
  (space, tab, CR, LF); Python additionally treats `\f`/`\v` as whitespace,
  which no input in this development contains.
* Raised Python exceptions are modelled with `Except`/dedicated error
  constructors; an exception escaping a function is an `.error`/`.exn` value.
* Filesystem state is modelled explicitly: a file's content is passed in and the
  content that would be written is returned; the read-only filesystem used by
  inclusion resolution is an association list from absolute path to content.
* Loops whose index jumps by a computed amount are written with an explicit
  `fuel : Nat` argument; wrappers supply fuel that provably suffices, and
  theorems about unbounded behaviour quantify over all sufficiently large fuel.
-/

namespace Domarkx

/-- Decidable equality for `Except`, used to evaluate concrete runs. -/
instance {ε α : Type} [DecidableEq ε] [DecidableEq α] : DecidableEq (Except ε α) := fun a b =>
  match a, b with
  | .ok x, .ok y => if h : x = y then .isTrue (by rw [h]) else .isFalse (by simp [h])
  | .error x, .error y => if h : x = y then .isTrue (by rw [h]) else .isFalse (by simp [h])
  | .ok _, .error _ => .isFalse (by simp)
  | .error _, .ok _ => .isFalse (by simp)

/-! ## String primitives (kernel-computable models of the Python primitives) -/

/-- Characters counted as whitespace, as in Python's default `str.strip()`. -/
def isWsChar (c : Char) : Bool := c.isWhitespace

/-- Python `str.strip()` on a character list: drop whitespace from both ends. -/
def trimChars (cs : List Char) : List Char :=
  ((cs.dropWhile isWsChar).reverse.dropWhile isWsChar).reverse

/-- Python `str.strip()`. -/
def pyStrip (s : String) : String := ⟨trimChars s.data⟩

/-- Python `str.startswith` / anchored prefix test. -/
def strStarts (s pre : String) : Bool := pre.data.isPrefixOf s.data

/-- Python `str.endswith`. -/
def strEnds (s suf : String) : Bool := suf.data.reverse.isPrefixOf s.data.reverse

/-- Drop the first `n` characters of a string. -/
def strDrop (s : String) (n : Nat) : String := ⟨s.data.drop n⟩

/-- Substring membership test (hay, needle), as Python's `in` on strings. -/
def listContainsSub (needle : List Char) : List Char → Bool
  | [] => needle.isPrefixOf ([] : List Char)
  | c :: rest => needle.isPrefixOf (c :: rest) || listContainsSub needle rest

/-- Split a character list on a separator character; like Python `str.split(sep)`,
the result always has one more chunk than there are separators. -/
def splitCharsOn (sep : Char) : List Char → List (List Char)
  | [] => [[]]
  | c :: rest =>
    if c = sep then [] :: splitCharsOn sep rest
    else
      match splitCharsOn sep rest with
      | [] => [[c]]
      | h :: t => (c :: h) :: t

/-- Split a string into its lines at each `'\n'`, keeping a final empty chunk
when the string ends with a newline (Python `str.split("\n")`). -/
def splitLines (s : String) : List String := (splitCharsOn '\n' s.data).map (⟨·⟩)

/-- Join strings with a separator (used to model `str.join`). -/
def joinWith (sep : String) : List String → String
  | [] => ""
  | [x] => x
  | x :: y :: rest => x ++ sep ++ joinWith sep (y :: rest)

/-- Python `str.splitlines()` (restricted to `'\n'` line boundaries, the only
line terminator appearing in this development): no trailing empty line. -/
def pySplitlines (s : String) : List String :=
  if s = "" then []
  else
    let parts := splitLines s
    if parts.getLast? = some "" then parts.dropLast else parts

/-- The chunks of Python `str.splitlines(keepends=True)` (again for `'\n'`):
each chunk keeps its terminating newline; a last unterminated chunk is kept. -/
def splitKeepGo : List Char → List Char → List String
  | acc, [] => if acc = [] then [] else [⟨acc.reverse⟩]
  | acc, c :: rest =>
    if c = '\n' then ⟨(c :: acc).reverse⟩ :: splitKeepGo [] rest
    else splitKeepGo (c :: acc) rest

/-- Python `str.splitlines(keepends=True)` restricted to `'\n'`. -/
def pySplitlinesKeepends (s : String) : List String := splitKeepGo [] s.data

/-- Digits of a decimal numeral; `none` when empty or a non-digit occurs. -/
def digitsToNat : List Char → Option Nat
  | [] => none
  | [c] => if c.isDigit then some (c.toNat - '0'.toNat) else none
  | c :: c2 :: rest =>
    if c.isDigit then
      (digitsToNat (c2 :: rest)).map (fun n => (c.toNat - '0'.toNat) * 10 ^ (c2 :: rest).length + n)
    else none

/-- Python `int(s)`: optional sign and decimal digits, surrounding whitespace
ignored; `none` models a raised `ValueError`. -/
def parseInt (s : String) : Option Int :=
  match trimChars s.data with
  | '-' :: ds => (digitsToNat ds).map (fun n => -(n : Int))
  | '+' :: ds => (digitsToNat ds).map (fun n => (n : Int))
  | ds => (digitsToNat ds).map (fun n => (n : Int))

/-- ASCII lowercase of one character (model of Python `str.lower` on ASCII). -/
def charLower (c : Char) : Char :=
  if 'A' ≤ c ∧ c ≤ 'Z' then Char.ofNat (c.toNat + 32) else c

/-- Python `str.lower()` (ASCII; all inputs in this development are ASCII). -/
def strLower (s : String) : String := ⟨s.data.map charLower⟩

/-! ## Path translation (src/domarkx/utils/agent_fs_map.py)

Paths are modelled as POSIX-style strings; `_normalize_path` is the identity on
the already-absolute, already-normalized paths used here (no `..`, no duplicate
or trailing separators), and `os.sep` is `"/"`.  A mapping table is the
association list of root pairs in the order of `_virtual_roots_sorted` /
`_real_roots_sorted` (length-descending). -/

/-- `os.path.isabs` for POSIX paths. -/
def isAbsPath (p : String) : Bool := strStarts p "/"

/-- Python `str.lstrip(os.sep)`. -/
def lstripSlash (s : String) : String := ⟨s.data.dropWhile (· = '/')⟩

/-- `os.path.join(a, b)` for a relative second component. -/
def joinPath (a b : String) : String := a ++ "/" ++ b

/-- The root-scanning loop of `resolve_virtual_path` (agent_fs_map.py lines
133-157): for each virtual root in order, a non-absolute input is re-joined
under that root, then an exact-root match or a separator-boundary prefix match
translates; otherwise the next root is tried. -/
def resolveVirtualLoop : List (String × String) → String → Option String
  | [], _ => none
  | (vroot, rroot) :: rest, virtual_path =>
    let normalized := if isAbsPath virtual_path then virtual_path else joinPath vroot virtual_path
    if normalized = vroot then some rroot
    else if strStarts normalized (vroot ++ "/") then
      some (joinPath rroot (lstripSlash (strDrop normalized vroot.length)))
    else resolveVirtualLoop rest virtual_path

/-- `resolve_virtual_path` (agent_fs_map.py lines 118-158): translate a virtual
path to a real path; `none` both for empty input and when no root matches. -/
def resolve_virtual_path (vmap : List (String × String)) (virtual_path : String) : Option String :=
  if virtual_path = "" then none
  else resolveVirtualLoop vmap virtual_path

/-- The root-scanning loop of `get_virtual_path` (agent_fs_map.py lines 176-192). -/
def getVirtualLoop : List (String × String) → String → Option String
  | [], _ => none
  | (rroot, vroot) :: rest, real_path =>
    if real_path = rroot then some vroot
    else if strStarts real_path (rroot ++ "/") then
      some (joinPath vroot (lstripSlash (strDrop real_path rroot.length)))
    else getVirtualLoop rest real_path

/-- `get_virtual_path` (agent_fs_map.py lines 161-192): translate a real path
back to its virtual form; `none` for empty input and for unmapped paths. -/
def get_virtual_path (rmap : List (String × String)) (real_path : String) : Option String :=
  if real_path = "" then none
  else getVirtualLoop rmap real_path

/-! ## Tool-call data model and dispatcher (src/domarkx/tool_call/roo_code/tool.py) -/

/-- One parsed tool call: name plus named raw string parameters, in insertion
order (the `dict` returned by `parse_tool_calls`). -/
structure ToolCall where
  tool_name : String
  parameters : List (String × String)
deriving DecidableEq, Repr

/-- A parameter value after the dispatcher's boolean coercion. -/
inductive ParamValue
  | boolVal (b : Bool)
  | strVal (s : String)
deriving DecidableEq, Repr

/-- The dispatcher's coercion (tool.py lines 62-69): the literal strings
"true"/"false" (case-insensitive) become booleans, all else stays a string. -/
def coerceParamValue (v : String) : ParamValue :=
  if strLower v = "true" then .boolVal true
  else if strLower v = "false" then .boolVal false
  else .strVal v

/-- Outcome of invoking a registered handler: a result, a raised `TypeError`
(bad argument shape), or any other raised exception. -/
inductive HandlerOutcome
  | ok (result : String)
  | typeError (msg : String)
  | raised (msg : String)
deriving DecidableEq, Repr

/-- Outcome of `execute_tool_call` as seen by its caller: either a normal
return of `(tool_name, result_text)`, or an exception propagating out. -/
inductive DispatchOutcome
  | result (tool_name : String) (text : String)
  | exn (msg : String)
deriving DecidableEq, Repr

/-- `execute_tool_call` (tool.py lines 33-103).  The registry is the
`REGISTERED_TOOLS` mapping as an association list.  For an unregistered name
the source raises `ValueError` (lines 53-56), modelled as `.exn`.  A
`TypeError` from the handler is caught and returned as an error string with a
rendered traceback (rendered by a rich console; environment-dependent, modelled
here as empty); any other exception is caught and returned as an error string
(the traceback suffix is empty because `return_traceback` defaults to False). -/
def execute_tool_call (registry : List (String × (List (String × ParamValue) → HandlerOutcome)))
    (tool_call : ToolCall) : DispatchOutcome :=
  match List.lookup tool_call.tool_name registry with
  | none => .exn ("未找到工具 '" ++ tool_call.tool_name ++ "'。")
  | some tool_func =>
    let processed := tool_call.parameters.map (fun p => (p.1, coerceParamValue p.2))
    match tool_func processed with
    | .ok r => .result tool_call.tool_name r
    | .typeError e =>
        .result tool_call.tool_name
          ("错误: 工具 '" ++ tool_call.tool_name ++ "' 的参数类型不正确或缺失: " ++ e ++ "\nTraceback:\n")
    | .raised e =>
        .result tool_call.tool_name
          ("错误: 执行工具 '" ++ tool_call.tool_name ++ "' 时发生错误: " ++ e ++ "\n")

/-- Whether a dispatch outcome is an exception escaping to the caller. -/
def DispatchOutcome.isExn : DispatchOutcome → Bool
  | .exn _ => true
  | .result _ _ => false

/-! ## Patch algorithm (src/domarkx/tool_call/roo_code/tools/apply_diff.py)

The file is modelled by its `readlines()` result (a list of lines, each keeping
its trailing newline); the write that the source performs once at the end is
modelled by the `.ok` payload of the result, and a raised exception by
`.error`, in which case no write occurs. -/

/-- One located edit operation, as accumulated in `operations` (apply_diff.py
lines 155-161). -/
structure DiffOp where
  start_idx : Nat
  search_len : Nat
  replace_content : String
deriving DecidableEq, Repr

/-- Recognizer for the `<<<<<<< SEARCH` marker line: the source matches
`\s*<<<<<<< ?SEARCH\s*` against the stripped line (apply_diff.py line 51). -/
def isSearchMarkerLine (l : String) : Bool :=
  pyStrip l = "<<<<<<< SEARCH" || pyStrip l = "<<<<<<<SEARCH"

/-- Recognizer for the `-------` separator (apply_diff.py lines 66-68). -/
def isDashesLine (l : String) : Bool := pyStrip l = "-------"

/-- Recognizer for the `=======` separator (apply_diff.py lines 73-75). -/
def isEqualsLine (l : String) : Bool := pyStrip l = "======="

/-- Recognizer for the `>>>>>>> REPLACE` end marker: the source matches
`\s*>{5,9} ?REPLACE\s*` against the stripped line (apply_diff.py line 89). -/
def isReplaceEndLine (l : String) : Bool :=
  let t := (pyStrip l).data
  let n := (t.takeWhile (· = '>')).length
  5 ≤ n && n ≤ 9 && (t.drop n == "REPLACE".data || t.drop n == (' ' :: "REPLACE".data))

/-- The start-line extraction `int(line.split(":")[2].strip())` applied to the
stripped `:start_line:` line (apply_diff.py line 61); `none` models the caught
`IndexError`/`ValueError`. -/
def parseStartLineNum (strippedLine : String) : Option Int :=
  ((splitCharsOn ':' strippedLine.data).get? 2).bind (fun cs => parseInt ⟨cs⟩)

/-- Lines `start_line_num + i` of the per-pair mismatch enumeration
(apply_diff.py lines 135-141). -/
def mismatchPairLines (start_line_num : Int) (actual_stripped search_stripped : List String) :
    List String :=
  (List.range (max actual_stripped.length search_stripped.length)).filterMap (fun i =>
    let actual_l := actual_stripped.getD i "<实际内容结束>"
    let search_l := search_stripped.getD i "<期望内容结束>"
    if actual_l ≠ search_l then
      some ("  行 " ++ toString (start_line_num + (i : Int)) ++ ": 实际='" ++ actual_l
        ++ "', 期望='" ++ search_l ++ "'")
    else none)

/-- The full mismatch enumeration `mismatch_info` (apply_diff.py lines 135-143):
the differing line pairs, then a line-count line when the counts differ. -/
def mismatchInfo (start_line_num : Int) (actual_stripped search_stripped : List String) :
    List String :=
  mismatchPairLines start_line_num actual_stripped search_stripped ++
    (if actual_stripped.length ≠ search_stripped.length then
      ["  行数不匹配: 实际=" ++ toString actual_stripped.length ++ ", 期望="
        ++ toString search_stripped.length]
    else [])

/-- The no-match diagnostic (apply_diff.py lines 145-151). -/
def noMatchMsg (virtual_path : String) (start_line_num : Int)
    (normalized_search_lines actual_content_to_check : List String)
    (actual_stripped search_stripped : List String) : String :=
  "Diff 块中搜索内容与文件 '" ++ virtual_path ++ "' 中的实际内容不精确匹配，从第 "
    ++ toString start_line_num ++ " 行开始或附近。\n搜索内容（提供用于比较的规范化形式）:\n"
    ++ String.join normalized_search_lines ++ "\n实际内容（提供用于比较的规范化形式）:\n"
    ++ String.join actual_content_to_check ++ "\n不匹配详情:\n"
    ++ joinWith "\n" (mismatchInfo start_line_num actual_stripped search_stripped)
    ++ "\n尝试在行号 " ++ toString start_line_num ++ " 的 +/- 5 范围内搜索，但未找到精确匹配。"

/-- The out-of-bounds diagnostic (apply_diff.py lines 106-110). -/
def outOfBoundsMsg (virtual_path : String) (start_line_num : Int)
    (search_len orig_len : Nat) : String :=
  "Diff 块中的搜索范围超出文件 '" ++ virtual_path ++ "' 的界限。\n开始行: "
    ++ toString start_line_num ++ ", 搜索内容行数: " ++ toString search_len
    ++ ", 文件总行数: " ++ toString orig_len ++ "。"

/-- Whether the stripped window of `search_len` lines at offset `i` equals the
stripped search lines (apply_diff.py lines 125-128). -/
def windowMatchesAt (original_lines normalized_search_lines : List String) (i : Nat) : Bool :=
  ((original_lines.drop i).take normalized_search_lines.length).map pyStrip
    == normalized_search_lines.map pyStrip

/-- The candidate offsets of the fuzzy window scan (apply_diff.py lines
122-124): `range(max(0, start_idx - 5), min(orig_len - search_len + 1,
start_idx + 5 + 1))`, scanned low-to-high. -/
def searchWindow (orig_len search_len start_idx : Nat) : List Nat :=
  let lo := start_idx - 5
  let hi := min (orig_len - search_len + 1) (start_idx + 5 + 1)
  List.range' lo (hi - lo)

/-- Locating one edit block (apply_diff.py lines 101-153): bounds check at the
declared 1-based start line, then the ±5 window scanned low-to-high for the
first stripped-equal offset; no pre-pass at the declared offset itself.  The
`.error` payloads are the raised `ValueError` messages. -/
def locateBlock (virtual_path : String) (original_lines : List String)
    (start_line_num : Int) (search_content : String) : Except String Nat :=
  let normalized_search_lines := pySplitlinesKeepends search_content
  let search_len := normalized_search_lines.length
  if start_line_num - 1 < 0 ∨ original_lines.length < (start_line_num - 1).toNat + search_len then
    .error (outOfBoundsMsg virtual_path start_line_num search_len original_lines.length)
  else
    let start_idx := (start_line_num - 1).toNat
    match (searchWindow original_lines.length search_len start_idx).find?
        (windowMatchesAt original_lines normalized_search_lines) with
    | some i => .ok i
    | none =>
      let actual_content_to_check := (original_lines.drop start_idx).take search_len
      .error (noMatchMsg virtual_path start_line_num normalized_search_lines
        actual_content_to_check (actual_content_to_check.map pyStrip)
        (normalized_search_lines.map pyStrip))

/-- The diff parsing/locating loop (apply_diff.py lines 48-163): scan the diff
lines; at each `<<<<<<< SEARCH` marker parse `:start_line:`, `-------`, the
search content, `=======`, the replacement content and the `>>>>>>> REPLACE`
end marker, locate the block in the file, and accumulate the operation; any
failure raises for the whole call.  Fuel only bounds iteration count; the
wrapper passes more than the number of diff lines. -/
def parseDiffGo (virtual_path : String) (original_lines : List String) :
    Nat → List String → Except String (List DiffOp)
  | 0, _ => .ok []
  | _ + 1, [] => .ok []
  | fuel + 1, line :: rest =>
    if isSearchMarkerLine line then
      match rest with
      | [] => .error "无效的 diff 格式: SEARCH 块后缺少内容。"
      | l1 :: rest1 =>
        let t := pyStrip l1
        if ¬ strStarts t ":start_line:" then
          .error "无效的 diff 格式: SEARCH 块后缺少 ':start_line:'。"
        else
          match parseStartLineNum t with
          | none => .error "无效的 diff 格式: ':start_line:' 后行号无效。"
          | some start_line_num =>
            match rest1 with
            | [] => .error "无效的 diff 格式: SEARCH 块后缺少 '-------' 分隔符。"
            | l2 :: rest2 =>
              if ¬ isDashesLine l2 then
                .error "无效的 diff 格式: SEARCH 块后缺少 '-------' 分隔符。"
              else
                let search_lines := rest2.takeWhile (fun l => ¬ isEqualsLine l)
                match rest2.dropWhile (fun l => ¬ isEqualsLine l) with
                | [] => .error "无效的 diff 格式: SEARCH 内容后缺少 '=======' 分隔符。"
                | _ :: rest4 =>
                  let replace_lines := rest4.takeWhile (fun l => ¬ isReplaceEndLine l)
                  match rest4.dropWhile (fun l => ¬ isReplaceEndLine l) with
                  | [] => .error "无效的 diff 格式: REPLACE 内容后缺少 '>>>>>>> REPLACE' 结束标记。"
                  | _ :: rest6 =>
                    let search_content := String.join search_lines
                    let replace_content := String.join replace_lines
                    match locateBlock virtual_path original_lines start_line_num search_content with
                    | .error e => .error e
                    | .ok found_idx =>
                      (parseDiffGo virtual_path original_lines fuel rest6).map
                        (fun ops =>
                          ⟨found_idx, (pySplitlinesKeepends search_content).length,
                            replace_content⟩ :: ops)
    else parseDiffGo virtual_path original_lines fuel rest

/-- Python `str.rstrip("\n")`. -/
def stripTrailingNl (s : String) : String := ⟨(s.data.reverse.dropWhile (· = '\n')).reverse⟩

/-- The replacement lines of one operation (apply_diff.py lines 174-176): each
`splitlines()` piece regains a newline, except that a replacement not ending in
a newline leaves its last line unterminated. -/
def pyReplaceLines (replace_content : String) : List String :=
  let ls := (pySplitlines replace_content).map (· ++ "\n")
  if strEnds replace_content "\n" then ls
  else
    match ls.reverse with
    | [] => []
    | last :: revInit => (stripTrailingNl last :: revInit).reverse

/-- Applying one located operation to the current lines (apply_diff.py lines
178-179): delete the matched span, insert the replacement lines. -/
def applyDiffOp (lines : List String) (op : DiffOp) : List String :=
  lines.take op.start_idx ++ pyReplaceLines op.replace_content
    ++ lines.drop (op.start_idx + op.search_len)

/-- Stable insertion into a list kept in descending `start_idx` order: the new
operation goes after every operation with a greater-or-equal offset. -/
def insertDesc (op : DiffOp) : List DiffOp → List DiffOp
  | [] => [op]
  | o :: rest =>
    if op.start_idx ≤ o.start_idx then o :: insertDesc op rest
    else op :: o :: rest

/-- `operations.sort(key=start_idx, reverse=True)` (apply_diff.py line 166):
Python's stable sort in descending offset order, modelled by stable insertion. -/
def sortOpsDesc (ops : List DiffOp) : List DiffOp :=
  ops.foldl (fun acc op => insertDesc op acc) []

/-- `apply_diff_tool` on its pure core (apply_diff.py lines 41-185): split the
diff text into lines, parse and locate all blocks (any failure raises before
any write), sort the operations by descending start offset, apply them in that
order, and return the content written back in the single final write. -/
def apply_diff_tool (virtual_path : String) (original_lines : List String) (diff : String) :
    Except String (List String) :=
  let diff_lines := pySplitlinesKeepends diff
  (parseDiffGo virtual_path original_lines (diff_lines.length + 1) diff_lines).map
    (fun ops => (sortOpsDesc ops).foldl applyDiffOp original_lines)

/-- The file content after an `apply_diff_tool` call: unchanged when the call
raised, the written lines otherwise. -/
def fileAfterApplyDiff (virtual_path : String) (original_lines : List String) (diff : String) :
    List String :=
  match apply_diff_tool virtual_path original_lines diff with
  | .error _ => original_lines
  | .ok new_lines => new_lines

/-! ## Command-tag extraction (src/domarkx/tool_call/roo_code/parser.py)

The regular expressions of the source are tiny and are modelled directly as
matching functions over `List Char`:
`<\s*([a-zA-Z_][a-zA-Z0-9_]*)\s*>` (open tag) and `</\s*NAME\s*>` (close tag
for a fixed name).  `re.search` is first-position-wins, modelled by scanning
from the head.  A raised `ToolCallParsingError` is the `.error` case. -/

/-- First character of a tag name: `[a-zA-Z_]`. -/
def isNameStartChar (c : Char) : Bool := c.isAlpha || c = '_'

/-- Later characters of a tag name: `[a-zA-Z0-9_]`. -/
def isNameChar (c : Char) : Bool := c.isAlphanum || c = '_'

/-- Anchored match of the open-tag pattern `<\s*([a-zA-Z_][a-zA-Z0-9_]*)\s*>`;
returns the captured name and the length of the whole match. -/
def matchOpenTag : List Char → Option (String × Nat)
  | [] => none
  | c :: rest =>
    if c = '<' then
      let ws1 := rest.takeWhile isWsChar
      let r1 := rest.dropWhile isWsChar
      match r1 with
      | c1 :: _ =>
        if isNameStartChar c1 then
          let nm := r1.takeWhile isNameChar
          let r2 := r1.dropWhile isNameChar
          let ws2 := r2.takeWhile isWsChar
          match r2.dropWhile isWsChar with
          | c2 :: _ =>
            if c2 = '>' then some (⟨nm⟩, 1 + ws1.length + nm.length + ws2.length + 1)
            else none
          | [] => none
        else none
      | [] => none
    else none

/-- `re.search` for the open-tag pattern: the first match position, with the
captured name and match length. -/
def searchOpenTag : List Char → Option (Nat × String × Nat)
  | [] => none
  | c :: rest =>
    match matchOpenTag (c :: rest) with
    | some (nm, len) => some (0, nm, len)
    | none => (searchOpenTag rest).map (fun r => (r.1 + 1, r.2))

/-- Anchored match of the close-tag pattern `</\s*NAME\s*>` for a fixed name;
returns the length of the whole match. -/
def matchCloseTag (nm : String) : List Char → Option Nat
  | [] => none
  | [_] => none
  | c :: c2 :: rest =>
    if c = '<' ∧ c2 = '/' then
      let ws1 := rest.takeWhile isWsChar
      let r1 := rest.dropWhile isWsChar
      if nm.data.isPrefixOf r1 then
        let r2 := r1.drop nm.data.length
        let ws2 := r2.takeWhile isWsChar
        match r2.dropWhile isWsChar with
        | c3 :: _ =>
          if c3 = '>' then some (2 + ws1.length + nm.length + ws2.length + 1)
          else none
        | [] => none
      else none
    else none

/-- `re.search` for the close-tag pattern of a fixed name: first match
position and match length. -/
def searchCloseTag (nm : String) : List Char → Option (Nat × Nat)
  | [] => none
  | c :: rest =>
    match matchCloseTag nm (c :: rest) with
    | some len => some (0, len)
    | none => (searchCloseTag nm rest).map (fun r => (r.1 + 1, r.2))

/-- Parameter storage `current_params[param_name] = value` (parser.py line
134): Python dict assignment keeps insertion order and overwrites in place. -/
def storeParam : List (String × String) → String → String → List (String × String)
  | [], k, v => [(k, v)]
  | (k0, v0) :: rest, k, v =>
    if k0 = k then (k0, v) :: rest else (k0, v0) :: storeParam rest k v

/-- The parameter loop over one tool block's content (parser.py lines 76-135):
find the next open tag; non-whitespace text before it raises
`ToolCallParsingError`; the value runs to the matching close tag, else to the
next open tag, else to the end of the block; values are stripped.  Each
iteration consumes at least the open tag, so fuel above the content length
never runs out. -/
def parseParamsGo (tool_name : String) :
    Nat → List Char → List (String × String) → Except String (List (String × String))
  | 0, _, acc => .ok acc
  | fuel + 1, content, acc =>
    match searchOpenTag content with
    | none => .ok acc
    | some (s, param_name, plen) =>
      let text_before_tag := pyStrip ⟨content.take s⟩
      if text_before_tag ≠ "" then
        .error ("工具 '" ++ tool_name ++ "' 块中在标签前存在格式错误的非标签内容: '"
          ++ text_before_tag ++ "'")
      else
        let after := content.drop (s + plen)
        match searchCloseTag param_name after with
        | some (cs, clen) =>
          parseParamsGo tool_name fuel (after.drop (cs + clen))
            (storeParam acc param_name (pyStrip ⟨after.take cs⟩))
        | none =>
          match searchOpenTag after with
          | some (ns, _, _) =>
            parseParamsGo tool_name fuel (after.drop ns)
              (storeParam acc param_name (pyStrip ⟨after.take ns⟩))
          | none => .ok (storeParam acc param_name (pyStrip ⟨after⟩))

/-- The top-level loop of `parse_tool_calls` (parser.py lines 34-142): find the
next open tag (the source advances one character at a time until an anchored
match, which is the same first match); the block content runs to the matching
close tag, else to the next open tag, else to the end of the message; the
block's parameters are then extracted, a parameter error aborting the whole
call. -/
def parseToolCallsGo : Nat → List Char → Except String (List ToolCall)
  | 0, _ => .ok []
  | fuel + 1, message =>
    match searchOpenTag message with
    | none => .ok []
    | some (s, tool_name, tlen) =>
      let after := message.drop (s + tlen)
      let contentRest : List Char × List Char :=
        match searchCloseTag tool_name after with
        | some (cs, clen) => (after.take cs, after.drop (cs + clen))
        | none =>
          match searchOpenTag after with
          | some (ns, _, _) => (after.take ns, after.drop ns)
          | none => (after, [])
      match parseParamsGo tool_name (contentRest.1.length + 1) contentRest.1 [] with
      | .error e => .error e
      | .ok params =>
        (parseToolCallsGo fuel contentRest.2).map
          (fun ts => ToolCall.mk tool_name params :: ts)

/-- `parse_tool_calls` (parser.py lines 10-142); `.error` is a raised
`ToolCallParsingError`, carrying no partial command list. -/
def parse_tool_calls (message : String) : Except String (List ToolCall) :=
  parseToolCallsGo (message.length + 1) message.data

/-! ## Chat document model (src/domarkx/utils/chat_doc_parser.py)

Data model of `CodeBlock`, `Message` and `ParsedDocument` (lines 16-41).
Metadata and session config are JSON values; every document in this
development uses flat string-to-string objects, so JSON is modelled as a flat
association list with the deterministic serialization
`json.dumps(..., indent=2, ensure_ascii=False)` and a reader restricted to
that shape.  The `json` and `frontmatter` libraries are outside the
repository; front matter does not occur in any input considered here. -/

/-- `CodeBlock` (chat_doc_parser.py lines 16-19). -/
structure CodeBlock where
  language : Option String
  code : String
deriving DecidableEq, Repr

/-- `Message` (chat_doc_parser.py lines 28-32). -/
structure ChatMessage where
  speaker : String
  content : String
  metadata : List (String × String)
deriving DecidableEq, Repr

/-- `ParsedDocument` (chat_doc_parser.py lines 35-41), restricted to the fields
the claims are about; `raw_lines` and the front-matter mapping are omitted. -/
structure ParsedDocument where
  session_config : Option (List (String × String)) := none
  session_setup_code : Option CodeBlock := none
  conversation : List ChatMessage := []
  errors : List String := []
deriving DecidableEq, Repr

/-- An opening brace character, written numerically. -/
def lbrace : Char := Char.ofNat 123

/-- A closing brace character, written numerically. -/
def rbrace : Char := Char.ofNat 125

/-- A JSON string literal for a string without escapes. -/
def jsonQuote (s : String) : String := "\"" ++ s ++ "\""

/-- One `"key": "value"` member line of the serialized object, at indent 2. -/
def jsonItem (kv : String × String) : String :=
  "  " ++ jsonQuote kv.1 ++ ": " ++ jsonQuote kv.2

/-- Modelled from the spec: the metadata fenced block is "serialized
deterministically" — `json.dumps(metadata, indent=2, ensure_ascii=False)` on a
flat string map, the `json` library being outside the repository. -/
def jsonDumps (m : List (String × String)) : String :=
  match m with
  | [] => "\x7b\x7d"
  | _ => "\x7b\n" ++ joinWith ",\n" (m.map jsonItem) ++ "\n\x7d"

/-- Well-formedness of a metadata mapping for the deterministic JSON model:
keys and values contain no quote, newline or backtick characters. -/
def wfMeta (m : List (String × String)) : Prop :=
  ∀ kv ∈ m, (∀ ch ∈ kv.1.data, ch ≠ '"' ∧ ch ≠ '\n' ∧ ch ≠ '`')
    ∧ (∀ ch ∈ kv.2.data, ch ≠ '"' ∧ ch ≠ '\n' ∧ ch ≠ '`')

instance (m : List (String × String)) : Decidable (wfMeta m) := by
  unfold wfMeta
  infer_instance

/-- Read one JSON string literal (no escape support: the development's
well-formedness condition excludes `"` and `\` from keys and values). -/
def jsonReadStr : List Char → Option (String × List Char)
  | [] => none
  | c :: rest =>
    if c = '"' then
      let sv := rest.takeWhile (· ≠ '"')
      match rest.dropWhile (· ≠ '"') with
      | c2 :: r2 => if c2 = '"' then some (⟨sv⟩, r2) else none
      | [] => none
    else none

/-- Skip JSON whitespace. -/
def skipWsL (cs : List Char) : List Char := cs.dropWhile isWsChar

/-- Read the `"key": "value"` pairs of a flat JSON object up to and including
the closing brace; fuel above the character count never runs out. -/
def jsonPairsGo : Nat → List Char → Option (List (String × String) × List Char)
  | 0, _ => none
  | fuel + 1, cs =>
    match jsonReadStr (skipWsL cs) with
    | none => none
    | some (k, r1) =>
      match skipWsL r1 with
      | [] => none
      | c1 :: r2 =>
        if c1 = ':' then
          match jsonReadStr (skipWsL r2) with
          | none => none
          | some (v, r3) =>
            match skipWsL r3 with
            | [] => none
            | c2 :: r4 =>
              if c2 = ',' then (jsonPairsGo fuel r4).map (fun pr => ((k, v) :: pr.1, pr.2))
              else if c2 = rbrace then some ([(k, v)], r4)
              else none
        else none

/-- Modelled from the spec: `json.loads` restricted to flat string-to-string
objects (the JSON shapes this development produces); `none` models a raised
`json.JSONDecodeError`. -/
def jsonParse (s : String) : Option (List (String × String)) :=
  match skipWsL s.data with
  | c :: rest =>
    if c = lbrace then
      match skipWsL rest with
      | d :: r2 =>
        if d = rbrace then
          if skipWsL r2 = [] then some [] else none
        else
          (jsonPairsGo (s.length + 1) (skipWsL rest)).bind
            (fun pr => if skipWsL pr.2 = [] then some pr.1 else none)
      | [] => none
    else none
  | [] => none

/-! ### Block-level markdown nodes

Modelled from the spec: the block-level tokenizer is the third-party `mistune`
parser (with the repository's `BlockParser` subclass), absent from src/.  Per
spec §4.1 step 6, the body "is parsed into block-level nodes (headings, fenced
code blocks, block quotes, blank lines)" and "a dedicated block-quote rule
must preserve the quote markers verbatim in the extracted content".  Headings
are ATX (`#`-style); a fenced code block's `raw` keeps a trailing newline and
its info string is the trimmed text after the opening fence; a block quote is
a maximal run of lines starting with `>`, its `raw` being those lines verbatim
(markers preserved), newline-joined; lines of no other shape are opaque
paragraph nodes, which the structural walk ignores. -/

inductive MdNode
  | heading (level : Nat) (text : String)
  | blockCode (info : String) (raw : String)
  | blockQuote (raw : String)
  | blankLine
  | paragraph (text : String)
deriving DecidableEq, Repr

/-- The mistune AST `type` tag of a node, for the walk's error message. -/
def nodeTypeName : MdNode → String
  | .heading _ _ => "heading"
  | .blockCode _ _ => "block_code"
  | .blockQuote _ => "block_quote"
  | .blankLine => "blank_line"
  | .paragraph _ => "paragraph"

/-- ATX heading recognition: 1-6 `#` then a space; yields level and raw text. -/
def headingOfLine (l : String) : Option (Nat × String) :=
  let hashes := l.data.takeWhile (· = '#')
  let n := hashes.length
  if 1 ≤ n ∧ n ≤ 6 then
    match l.data.drop n with
    | c :: rest => if c = ' ' then some (n, ⟨rest⟩) else none
    | [] => none
  else none

/-- Modelled from the spec (§4.1 step 6): block-level tokenization of the
resolved document lines; see the section comment above. -/
def tokenizeGo : Nat → List String → List MdNode
  | 0, _ => []
  | _ + 1, [] => []
  | fuel + 1, l :: rest =>
    if pyStrip l = "" then .blankLine :: tokenizeGo fuel rest
    else if strStarts l "```" then
      let info := pyStrip (strDrop l 3)
      let inner := rest.takeWhile (fun x => ¬ strStarts x "```")
      let raw := joinWith "\n" inner ++ "\n"
      match rest.dropWhile (fun x => ¬ strStarts x "```") with
      | [] => [.blockCode info raw]
      | _ :: rest3 => .blockCode info raw :: tokenizeGo fuel rest3
    else if strStarts l ">" then
      let qs := (l :: rest).takeWhile (fun x => strStarts x ">")
      .blockQuote (joinWith "\n" qs) :: tokenizeGo fuel ((l :: rest).dropWhile (fun x => strStarts x ">"))
    else
      match headingOfLine l with
      | some (lvl, text) => .heading lvl text :: tokenizeGo fuel rest
      | none => .paragraph l :: tokenizeGo fuel rest

/-- Tokenize a document body. -/
def tokenize (md : String) : List MdNode :=
  let lines := splitLines md
  tokenizeGo (lines.length + 1) lines

/-- Drop leading `blank_line` nodes (the `while ... == "blank_line"` lookahead
loops of the walk, chat_doc_parser.py lines 311-312, 340-341, 359-363). -/
def dropBlanks (ns : List MdNode) : List MdNode :=
  ns.dropWhile (fun n => match n with | .blankLine => true | _ => false)

/-- Python `x.strip("\n")` used on the setup code block (line 319). -/
def stripNlBoth (s : String) : String :=
  ⟨((s.data.dropWhile (· = '\n')).reverse.dropWhile (· = '\n')).reverse⟩

/-- The structural walk over the block nodes (chat_doc_parser.py lines
296-395): before any level-2 heading, one `session-config` fenced block (with
an optional immediately following fenced setup block) fills the session
configuration; each level-2 ATX heading opens a message whose optional
`msg-metadata` fenced block and block-quote content are looked up past blank
lines; a missing content block records an error and leaves the content empty.
JSON failures are recorded errors, never fatal. -/
def walkGo : Nat → List MdNode → Bool → ParsedDocument → ParsedDocument
  | 0, _, _, doc => doc
  | _ + 1, [], _, doc => doc
  | fuel + 1, node :: rest, config_parsed, doc =>
    match node with
    | .blockCode info raw =>
      if ¬ config_parsed ∧ listContainsSub "session-config".data info.data then
        match jsonParse raw with
        | none =>
          walkGo fuel rest true
            { doc with errors := doc.errors ++ ["Error parsing session-config JSON"] }
        | some config_data =>
          match dropBlanks rest with
          | .blockCode info2 raw2 :: rest2 =>
            walkGo fuel rest2 true
              { doc with session_config := some config_data,
                         session_setup_code := some ⟨some info2, stripNlBoth raw2⟩ }
          | _ =>
            walkGo fuel rest true { doc with session_config := some config_data }
      else walkGo fuel rest config_parsed doc
    | .heading 2 text =>
      let speaker := pyStrip text
      let metaAndRest : List (String × String) × List String × List MdNode :=
        match dropBlanks rest with
        | .blockCode info2 raw2 :: rest2 =>
          if listContainsSub "msg-metadata".data info2.data then
            match jsonParse raw2 with
            | some meta => (meta, [], rest2)
            | none =>
              ([], ["Error parsing msg-metadata JSON for '" ++ speaker ++ "'"], rest2)
          else ([], [], rest)
        | _ => ([], [], rest)
      match dropBlanks metaAndRest.2.2 with
      | .blockQuote raw :: rest3 =>
        walkGo fuel rest3 true
          { doc with conversation := doc.conversation ++ [⟨speaker, raw, metaAndRest.1⟩],
                     errors := doc.errors ++ metaAndRest.2.1 }
      | other =>
        let err_node_type := match other with
          | n :: _ => nodeTypeName n
          | [] => "nothing"
        walkGo fuel metaAndRest.2.2 true
          { doc with conversation := doc.conversation ++ [⟨speaker, "", metaAndRest.1⟩],
                     errors := doc.errors ++ metaAndRest.2.1
                       ++ ["Expected block_quote for message content for speaker '" ++ speaker
                           ++ "', found " ++ err_node_type ++ " at line ~?. Content may be missing."] }
    | _ => walkGo fuel rest config_parsed doc

/-- Parse a resolved document body into the structural document (the part of
`MarkdownLLMParser.parse` after inclusion resolution, lines 291-395). -/
def parseBody (md : String) : ParsedDocument :=
  let nodes := tokenize md
  walkGo (nodes.length + 1) nodes false {}

/-- `MarkdownLLMParser.parse` with `resolve_inclusions=False` (lines 237-276,
273-274) on a document without front matter. -/
def parseNoInc (md : String) : ParsedDocument := parseBody md

/-- `append_message` (chat_doc_parser.py lines 431-441): appends a blank
separator, the `## speaker` heading, the serialized `msg-metadata` fenced
block, and the content with a `"> "` marker put before every line. -/
def append_message (doc : String) (message : ChatMessage) : String :=
  doc ++ "\n\n## " ++ message.speaker ++ "\n\n```json msg-metadata\n"
      ++ jsonDumps message.metadata ++ "\n```\n\n"
      ++ joinWith "\n" ((pySplitlines message.content).map ("> " ++ ·)) ++ "\n"

/-- One level of block-quote wrapping, as `append_message` performs on the
message content. -/
def addQuoteLevel (content : String) : String :=
  joinWith "\n" ((pySplitlines content).map ("> " ++ ·))

/-! ### Inclusion resolution (chat_doc_parser.py lines 85-235, 237-276)

The filesystem is an association list from absolute path to file content.
Paths stay in the POSIX normal form described for the path-mapping model, so
`os.path.normpath(os.path.join(base, rel))` is `base ++ "/" ++ rel` for the
relative, `..`-free targets used here, and `os.path.dirname` drops the last
component.  The `processing_stack` set is a list of absolute paths.  The
`while True` re-scan loop and the mutual recursion with `parse` are driven by
one shared structural fuel; every theorem about them quantifies over all
sufficiently large fuel, which models termination. -/

/-- `os.path.dirname` for POSIX paths. -/
def dirname (p : String) : String :=
  if p.data.contains '/' then
    let pre := ((p.data.reverse.dropWhile (· ≠ '/')).drop 1).reverse
    if pre = [] then "/" else ⟨pre⟩
  else ""

/-- Match one line against `INCLUSION_REGEX` (chat_doc_parser.py lines 66-69):
optional `[ \t]*` indent, optional `>` plus `[ \t]*` quote marker, the literal
`[include](`, a non-empty path spec without `)`, `)`, then only `[ \t]*`.
The source compiles it case-insensitively; every occurrence in this
development is lower-case. -/
def parseInclusionLine (l : String) : Option (String × Bool × String) :=
  let isIndentChar : Char → Bool := fun c => c = ' ' || c = '\t'
  let cs := l.data
  let ind := cs.takeWhile isIndentChar
  let r1 := cs.dropWhile isIndentChar
  let quotedRest : Bool × List Char :=
    match r1 with
    | [] => (false, [])
    | c :: rq => if c = '>' then (true, rq.dropWhile isIndentChar) else (false, c :: rq)
  if "[include](".data.isPrefixOf quotedRest.2 then
    let r3 := quotedRest.2.drop 10
    let path := r3.takeWhile (· ≠ ')')
    match r3.dropWhile (· ≠ ')') with
    | [] => none
    | c :: r5 =>
      if c = ')' ∧ path ≠ [] ∧ r5.all isIndentChar then some (⟨ind⟩, quotedRest.1, ⟨path⟩)
      else none
  else none

/-- First line (by index) matching the inclusion pattern: the `MULTILINE`
`INCLUSION_REGEX.search` of the re-scan loop (line 125). -/
def findInclGo : Nat → List String → Option (Nat × String × Bool × String)
  | _, [] => none
  | i, l :: rest =>
    match parseInclusionLine l with
    | some m => some (i, m)
    | none => findInclGo (i + 1) rest

/-- Split a path spec at the first `#` (`path_spec.split("#", 1)`, line 133). -/
def splitHash (s : String) : String × Option String :=
  let pre := s.data.takeWhile (· ≠ '#')
  match s.data.dropWhile (· ≠ '#') with
  | [] => (⟨pre⟩, none)
  | _ :: rest => (⟨pre⟩, some ⟨rest⟩)

/-- `_format_as_blockquote` (chat_doc_parser.py lines 92-101). -/
def format_as_blockquote (text : String) : String :=
  if text = "" then ""
  else joinWith "\n" ((pySplitlines text).map ("> " ++ ·))

/-- Re-applying the directive's indent to every replacement line
(chat_doc_parser.py lines 210-218; the unreachable branches at 211-215
collapse as analysed there: `splitlines` is empty exactly for the empty
string). -/
def applyIndent (indent replacement : String) : String :=
  if replacement = "" then ""
  else joinWith "\n" ((pySplitlines replacement).map (indent ++ ·))

/-- The message-index substitution (chat_doc_parser.py lines 172-189):
negative indices count from the end; empty conversations and out-of-range
indices yield an inline error marker plus a recorded error. -/
def selectMessageContent (messages : List ChatMessage) (target_rel : String) (msg_index : Int) :
    String × List String :=
  if messages = [] then
    let e := "No messages found in '" ++ target_rel ++ "' to select index "
      ++ toString msg_index ++ "."
    ("> **ERROR**: " ++ e, [e])
  else
    let num : Int := messages.length
    let effective := if msg_index < 0 then num + msg_index else msg_index
    if 0 ≤ effective ∧ effective < num then
      ((messages.getD effective.toNat ⟨"", "", []⟩).content, [])
    else
      let e := "Message index " ++ toString msg_index ++ " (resolved to "
        ++ toString effective ++ ") out of bounds for " ++ target_rel ++ " ("
        ++ toString messages.length ++ " messages)."
      ("> **ERROR**: " ++ e, [e])

/-- A request to the mutually recursive resolution machinery, flattened into
one structural recursion on fuel: `res` is `_resolve_inclusions` (cycle check
plus loop), `loop` is its `while True` re-scan body, `parseR` is a
(sub-)`parse` call with inclusion resolution. -/
inductive ResolveReq
  | res (md absPath baseDir : String) (stack : List String)
  | loop (content baseDir : String) (stack : List String)
  | parseR (md sourcePath : String) (stack : List String)

/-- Result of a resolution request: resolved text plus collected errors, or a
parsed document. -/
inductive ResolveOut
  | text (s : String) (errs : List String)
  | doc (d : ParsedDocument)

/-- Project resolved text and errors out of a `ResolveOut`. -/
def ResolveOut.asText : ResolveOut → String × List String
  | .text s e => (s, e)
  | .doc d => ("", d.errors)

/-- Project a document out of a `ResolveOut`. -/
def ResolveOut.asDoc : ResolveOut → ParsedDocument
  | .doc d => d
  | .text s e => { parseBody s with errors := e }

/-- Prepend errors onto the text form of a `ResolveOut`. -/
def prependErrs (errs : List String) (r : ResolveOut) : ResolveOut :=
  .text r.asText.1 (errs ++ r.asText.2)

/-- The combined inclusion-resolution machinery:

* `.res` is `_resolve_inclusions` (chat_doc_parser.py lines 103-235): a path
  already in the in-flight stack yields the inline cycle marker and the cycle
  error instead of recursing; otherwise the path is pushed and the re-scan
  loop runs (the pop at line 234 is implicit in the functional stack).
* `.loop` is the `while True` body (lines 124-232): find the first inclusion
  directive; a non-integer index substitutes the indented error marker
  directly (lines 141-152); otherwise fetch the target (`FileNotFoundError`
  becomes an inline marker and error, lines 195-197), then either substitute
  the recursively resolved whole file (lines 190-194) or the selected message
  of the recursively parsed file (lines 162-189); the replacement is
  re-quoted when the directive was quoted, re-indented line by line, spliced
  in place of the directive line, and the loop re-scans.
* `.parseR` is a sub-`parse` with inclusion resolution (lines 237-276,
  front matter absent): resolve, then structurally parse, resolution errors
  first. -/
def runResolve (fs : List (String × String)) : Nat → ResolveReq → ResolveOut
  | 0, .res md _ _ _ => .text md []
  | 0, .loop content _ _ => .text content []
  | 0, .parseR md _ _ => .doc (parseBody md)
  | fuel + 1, .res md absPath baseDir stack =>
    if absPath ∈ stack then
      let e := "Circular inclusion detected: " ++ absPath ++ " is already being processed."
      .text ("> **ERROR**: " ++ e) [e]
    else runResolve fs fuel (.loop md baseDir (absPath :: stack))
  | fuel + 1, .loop content baseDir stack =>
    let lines := splitLines content
    match findInclGo 0 lines with
    | none => .text content []
    | some (i, indent, quoted, pathSpec) =>
      let step : String → Option Int → ResolveOut := fun rel idxOpt =>
        let absP := joinPath baseDir rel
        let replErrs : String × List String :=
          match List.lookup absP fs with
          | none =>
            ("> **ERROR**: Included file not found: " ++ rel,
              ["Included file not found: " ++ absP])
          | some fileContent =>
            match idxOpt with
            | none => (runResolve fs fuel (.res fileContent absP (dirname absP) stack)).asText
            | some n =>
              let d := (runResolve fs fuel (.parseR fileContent absP stack)).asDoc
              let sel := selectMessageContent d.conversation rel n
              (sel.1, d.errors ++ sel.2)
        let repl2 := if quoted then format_as_blockquote replErrs.1 else replErrs.1
        let finalRepl := applyIndent indent repl2
        let nc := joinWith "\n" (lines.take i ++ [finalRepl] ++ lines.drop (i + 1))
        prependErrs replErrs.2 (runResolve fs fuel (.loop nc baseDir stack))
      let hashParts := splitHash pathSpec
      let rel := hashParts.1
      match hashParts.2 with
      | some idxStr =>
        match parseInt idxStr with
        | none =>
          let e := "Invalid message index '" ++ idxStr ++ "' in include directive for '"
            ++ rel ++ "'. Must be an integer."
          let replacement := indent ++ "> **ERROR**: " ++ e
          let nc := joinWith "\n" (lines.take i ++ [replacement] ++ lines.drop (i + 1))
          prependErrs [e] (runResolve fs fuel (.loop nc baseDir stack))
        | some n => step rel (some n)
      | none => step rel none
  | fuel + 1, .parseR md sourcePath stack =>
    let resolved := (runResolve fs fuel (.res md sourcePath (dirname sourcePath) stack)).asText
    let doc := parseBody resolved.1
    .doc { doc with errors := resolved.2 ++ doc.errors }

/-- `_resolve_inclusions` (chat_doc_parser.py lines 103-235) as a function of
the filesystem, fuel, content, its absolute path, its base directory and the
in-flight stack: resolved text and the errors recorded on the document. -/
def _resolve_inclusions (fs : List (String × String)) (fuel : Nat) (md absPath baseDir : String)
    (stack : List String) : String × List String :=
  (runResolve fs fuel (.res md absPath baseDir stack)).asText

/-- `MarkdownLLMParser.parse` with inclusion resolution (chat_doc_parser.py
lines 237-276) for a content string located at `sourcePath` (front matter
absent). -/
def parseDocument (fs : List (String × String)) (fuel : Nat) (md sourcePath : String) :
    ParsedDocument :=
  (runResolve fs fuel (.parseR md sourcePath [])).asDoc

/-! # Theorems -/

/-! ## Path translation lemmas and claim C10 -/

theorem getVirtualLoop_eq_none (rmap : List (String × String)) (p : String)
    (h : ∀ pr ∈ rmap, p ≠ pr.1 ∧ strStarts p (pr.1 ++ "/") = false) :
    getVirtualLoop rmap p = none := by
  induction rmap with
  | nil => rfl
  | cons pr rest ih =>
    obtain ⟨h1, h2⟩ := h pr (List.mem_cons_self pr rest)
    simp only [getVirtualLoop, h1, h2]
    simp only [if_neg h1, Bool.false_eq_true, if_false]
    exact ih (fun q hq => h q (List.mem_cons_of_mem pr hq))

theorem resolveVirtualLoop_eq_none (vmap : List (String × String)) (p : String)
    (habs : isAbsPath p = true)
    (h : ∀ pr ∈ vmap, p ≠ pr.1 ∧ strStarts p (pr.1 ++ "/") = false) :
    resolveVirtualLoop vmap p = none := by
  induction vmap with
  | nil => rfl
  | cons pr rest ih =>
    obtain ⟨h1, h2⟩ := h pr (List.mem_cons_self pr rest)
    simp only [resolveVirtualLoop, habs, if_true, h1, h2]
    simp only [if_neg h1, Bool.false_eq_true, if_false]
    exact ih (fun q hq => h q (List.mem_cons_of_mem pr hq))

/-- C10: path translation is total and never raises; both directions return
`none` for empty input and for any path under no configured root, and a root
matches only at a path-separator boundary, so `/apple` is not translated under
a configured root `/a`; a genuine boundary extension is translated. -/
theorem C10_path_translation_boundary (vmap rmap : List (String × String)) (p : String) :
    (resolve_virtual_path vmap "" = none) ∧
    (get_virtual_path rmap "" = none) ∧
    (p ≠ "" → (∀ pr ∈ rmap, p ≠ pr.1 ∧ strStarts p (pr.1 ++ "/") = false) →
      get_virtual_path rmap p = none) ∧
    (p ≠ "" → isAbsPath p = true →
      (∀ pr ∈ vmap, p ≠ pr.1 ∧ strStarts p (pr.1 ++ "/") = false) →
      resolve_virtual_path vmap p = none) ∧
    (get_virtual_path [("/a", "/va")] "/apple" = none) ∧
    (resolve_virtual_path [("/a", "/ra")] "/apple" = none) ∧
    (resolve_virtual_path [("/a", "/ra")] "/a/b" = some "/ra/b") ∧
    (get_virtual_path [("/ra", "/a")] "/ra" = some "/a") := by
  refine ⟨rfl, rfl, ?_, ?_, by decide, by decide, by decide, by decide⟩
  · intro hne h
    unfold get_virtual_path
    rw [if_neg hne]
    exact getVirtualLoop_eq_none rmap p h
  · intro hne habs h
    unfold resolve_virtual_path
    rw [if_neg hne]
    exact resolveVirtualLoop_eq_none vmap p habs h

/-- Witness for C10 at concrete inputs. -/
theorem C10_path_translation_boundary_witness :
    get_virtual_path [("/a", "/va")] "/apple" = none ∧
    resolve_virtual_path [("/a", "/ra")] "/apple" = none :=
  ⟨(C10_path_translation_boundary [("/a", "/ra")] [("/a", "/va")] "/apple").2.2.1
      (by decide) (by decide),
    (C10_path_translation_boundary [("/a", "/ra")] [("/a", "/va")] "/apple").2.2.2.1
      (by decide) (by decide) (by decide)⟩

/-! ## Dispatcher: claim C1

The claim states that `execute_tool_call` returns a failure `CommandResult`
for an unregistered command name and never raises to its caller.  The source
(tool.py lines 53-56) instead raises `ValueError` — and documents exactly that
in its own docstring ("抛出: ValueError: 如果找不到对应的工具") — while handler
failures of registered tools are caught and returned normally.  The claim is
therefore corrected: the missing-handler case raises; only failures of
registered handlers are converted to normal returns. -/

/-- C1 counterexample: at the concrete call with an empty registry, the
dispatcher raises a `ValueError` carrying the missing-handler diagnostic (the
`.exn` outcome), instead of returning a failure `CommandResult` as claimed. -/
theorem C1_counterexample_unregistered_raises :
    execute_tool_call [] ⟨"t", []⟩ = .exn "未找到工具 't'。" ∧
    (execute_tool_call [] ⟨"t", []⟩).isExn = true := ⟨rfl, rfl⟩

/-- C1 (amended): for every dispatched command whose name has no registered
handler, `execute_tool_call` raises `ValueError` with the missing-handler
diagnostic and executes nothing; failures raised by a registered handler are
caught and returned normally as a failure result. -/
theorem C1_unregistered_dispatch (registry : List (String × (List (String × ParamValue) → HandlerOutcome)))
    (tc : ToolCall) :
    (List.lookup tc.tool_name registry = none →
      execute_tool_call registry tc = .exn ("未找到工具 '" ++ tc.tool_name ++ "'。")) ∧
    (∀ f msg, List.lookup tc.tool_name registry = some f →
      f (tc.parameters.map (fun p => (p.1, coerceParamValue p.2))) = .raised msg →
      execute_tool_call registry tc
        = .result tc.tool_name ("错误: 执行工具 '" ++ tc.tool_name ++ "' 时发生错误: " ++ msg ++ "\n")) := by
  constructor
  · intro h
    unfold execute_tool_call
    rw [h]
  · intro f msg hf hr
    unfold execute_tool_call
    rw [hf]
    simp only [hr]

/-- Witness for C1 at concrete inputs: an unregistered name raises; a
registered handler that raises is caught and returned normally. -/
theorem C1_unregistered_dispatch_witness :
    execute_tool_call [("x", fun _ => HandlerOutcome.raised "boom")] ⟨"t", []⟩
      = .exn "未找到工具 't'。" ∧
    execute_tool_call [("x", fun _ => HandlerOutcome.raised "boom")] ⟨"x", []⟩
      = .result "x" "错误: 执行工具 'x' 时发生错误: boom\n" :=
  ⟨(C1_unregistered_dispatch [("x", fun _ => HandlerOutcome.raised "boom")] ⟨"t", []⟩).1 rfl,
    (C1_unregistered_dispatch [("x", fun _ => HandlerOutcome.raised "boom")] ⟨"x", []⟩).2
      (fun _ => HandlerOutcome.raised "boom") "boom" rfl rfl⟩

/-! ## Command-tag extraction: claim C4

The claim (and the source's own docstring, parser.py lines 29-30) says that
parsing the truncated `"<t><a>1"` yields one command `t` with parameters
`{a: "1"}`.  The code disagrees: an unclosed tool's block content runs only to
the next open tag (parser.py lines 65-69), and since every parameter begins
with an open tag, an unclosed tool's content stops right before its own first
parameter.  The parameter tag is then re-scanned as a separate top-level
command.  The docstring example `parse_tool_calls("<tool3><paramC>valueC")`
is documented to return `[{'tool_name': 'tool3', 'parameters': {'paramC':
'valueC'}}]` but returns `[{'tool3', {}}, {'paramC', {}}]`: the code
contradicts its own documentation, so the claim stands and the code is at
fault. -/

/-- C4: evaluating the embedding at the claim's input `"<t><a>1"` and at the
docstring's own input: the truncated command loses its parameter, which is
parsed as a second, empty command — against both the claim and the source's
docstring. -/
theorem C4_truncated_command_loses_parameters :
    parse_tool_calls "<t><a>1" = .ok [⟨"t", []⟩, ⟨"a", []⟩] ∧
    parse_tool_calls "<t><a>1" ≠ .ok [⟨"t", [("a", "1")]⟩] ∧
    parse_tool_calls "<tool3><paramC>valueC" = .ok [⟨"tool3", []⟩, ⟨"paramC", []⟩] ∧
    parse_tool_calls "<tool3><paramC>valueC"
      ≠ .ok [⟨"tool3", [("paramC", "valueC")]⟩] := by
  refine ⟨by decide, by decide, by decide, by decide⟩

/-! ## Command-tag extraction: claim C8

C8 is proved for an arbitrary garbage segment: any text without `<` that does
not strip to the empty string, standing between one closed parameter and the
next parameter's open tag, makes the whole `parse_tool_calls` call raise. -/

theorem take_append_add {α : Type} (l₁ l₂ : List α) (n : Nat) :
    (l₁ ++ l₂).take (l₁.length + n) = l₁ ++ l₂.take n := by
  induction l₁ with
  | nil => simp
  | cons a r ih => simp [List.take_succ_cons, Nat.succ_add, ih]

theorem drop_append_add {α : Type} (l₁ l₂ : List α) (n : Nat) :
    (l₁ ++ l₂).drop (l₁.length + n) = l₂.drop n := by
  induction l₁ with
  | nil => simp
  | cons a r ih => simp [List.drop_succ_cons, Nat.succ_add, ih]

theorem matchOpenTag_cons_ne {c : Char} (rest : List Char) (hc : c ≠ '<') :
    matchOpenTag (c :: rest) = none := by
  simp [matchOpenTag, hc]

theorem matchCloseTag_cons_ne {nm : String} {c : Char} (rest : List Char) (hc : c ≠ '<') :
    matchCloseTag nm (c :: rest) = none := by
  cases rest with
  | nil => rfl
  | cons c2 r => simp [matchCloseTag, hc]

theorem matchCloseTag_cons_ne2 {nm : String} {c c2 : Char} (rest : List Char)
    (hc : ¬ (c = '<' ∧ c2 = '/')) :
    matchCloseTag nm (c :: c2 :: rest) = none := by
  simp [matchCloseTag, hc]

theorem matchCloseTag_name_fail {nm : String} (rest : List Char)
    (h : nm.data.isPrefixOf (rest.dropWhile isWsChar) = false) :
    matchCloseTag nm ('<' :: '/' :: rest) = none := by
  simp [matchCloseTag, h]

theorem searchOpenTag_cons_some {c : Char} {rest : List Char} {nm : String} {len : Nat}
    (h : matchOpenTag (c :: rest) = some (nm, len)) :
    searchOpenTag (c :: rest) = some (0, nm, len) := by
  simp [searchOpenTag, h]

theorem searchOpenTag_cons_none {c : Char} {rest : List Char}
    (h : matchOpenTag (c :: rest) = none) :
    searchOpenTag (c :: rest) = (searchOpenTag rest).map (fun r => (r.1 + 1, r.2)) := by
  simp [searchOpenTag, h]

theorem searchCloseTag_cons_some {nm : String} {c : Char} {rest : List Char} {len : Nat}
    (h : matchCloseTag nm (c :: rest) = some len) :
    searchCloseTag nm (c :: rest) = some (0, len) := by
  simp [searchCloseTag, h]

theorem searchCloseTag_cons_none {nm : String} {c : Char} {rest : List Char}
    (h : matchCloseTag nm (c :: rest) = none) :
    searchCloseTag nm (c :: rest) = (searchCloseTag nm rest).map (fun r => (r.1 + 1, r.2)) := by
  simp [searchCloseTag, h]

theorem searchOpenTag_append (g : List Char) (rest : List Char) (hg : ∀ c ∈ g, c ≠ '<') :
    searchOpenTag (g ++ rest) = (searchOpenTag rest).map (fun r => (r.1 + g.length, r.2)) := by
  induction g with
  | nil =>
    cases h : searchOpenTag rest with
    | none => simp [h]
    | some r => simp [h]
  | cons c g2 ih =>
    have hc : c ≠ '<' := hg c (List.mem_cons_self c g2)
    rw [List.cons_append, searchOpenTag_cons_none (matchOpenTag_cons_ne _ hc),
      ih (fun d hd => hg d (List.mem_cons_of_mem c hd))]
    cases h : searchOpenTag rest with
    | none => rfl
    | some r =>
      simp [Function.comp, Nat.add_assoc]

theorem searchCloseTag_append (nm : String) (g : List Char) (rest : List Char)
    (hg : ∀ c ∈ g, c ≠ '<') :
    searchCloseTag nm (g ++ rest)
      = (searchCloseTag nm rest).map (fun r => (r.1 + g.length, r.2)) := by
  induction g with
  | nil =>
    cases h : searchCloseTag nm rest with
    | none => simp [h]
    | some r => simp [h]
  | cons c g2 ih =>
    have hc : c ≠ '<' := hg c (List.mem_cons_self c g2)
    rw [List.cons_append, searchCloseTag_cons_none (matchCloseTag_cons_ne _ hc),
      ih (fun d hd => hg d (List.mem_cons_of_mem c hd))]
    cases h : searchCloseTag nm rest with
    | none => rfl
    | some r =>
      simp [Function.comp, Nat.add_assoc]

theorem matchOpenTag_lit_t (T : List Char) :
    matchOpenTag ('<' :: 't' :: '>' :: T) = some ("t", 3) := by
  simp [matchOpenTag, List.takeWhile_cons, List.dropWhile_cons, isWsChar, isNameStartChar,
    isNameChar]

/-- C8: non-whitespace text before a parameter's open tag raises
`ToolCallParsingError` for the whole call, with no partial command list.
Proved for an arbitrary garbage string `g` (no `<`, not all whitespace) in the
body of a closed command `t`, and at the spec's concrete example. -/
theorem C8_stray_text_before_parameter_raises (g : String)
    (hlt : ∀ c ∈ g.data, c ≠ '<') (hnw : pyStrip g ≠ "") :
    parse_tool_calls ("<t>" ++ g ++ "<a>x</a></t>")
      = .error ("工具 't' 块中在标签前存在格式错误的非标签内容: '" ++ pyStrip g ++ "'") ∧
    parse_tool_calls "<t><a>x</a> garbage <b>y</b></t>"
      = .error "工具 't' 块中在标签前存在格式错误的非标签内容: 'garbage'" := by
  refine ⟨?_, by decide⟩
  have hdata : ("<t>" ++ g ++ "<a>x</a></t>").data
      = '<' :: 't' :: '>' :: (g.data ++ "<a>x</a></t>".data) := by
    cases g
    rfl
  have hopen : searchOpenTag ('<' :: 't' :: '>' :: (g.data ++ "<a>x</a></t>".data))
      = some (0, "t", 3) :=
    searchOpenTag_cons_some (matchOpenTag_lit_t _)
  have hcloseC : searchCloseTag "t" "<a>x</a></t>".data = some (8, 4) := by decide
  have hclose : searchCloseTag "t" (g.data ++ "<a>x</a></t>".data)
      = some (8 + g.data.length, 4) := by
    rw [searchCloseTag_append "t" g.data "<a>x</a></t>".data hlt, hcloseC]
    rfl
  have htake : (g.data ++ "<a>x</a></t>".data).take (8 + g.data.length)
      = g.data ++ "<a>x</a>".data := by
    rw [Nat.add_comm 8 g.data.length, take_append_add]
    rfl
  have hopen2 : searchOpenTag (g.data ++ "<a>x</a>".data) = some (g.data.length, "a", 3) := by
    rw [searchOpenTag_append g.data "<a>x</a>".data hlt]
    rw [show searchOpenTag "<a>x</a>".data = some (0, "a", 3) from by decide]
    simp
  have hbefore : (g.data ++ "<a>x</a>".data).take g.data.length = g.data :=
    List.take_left g.data "<a>x</a>".data
  have hparams : parseParamsGo "t" ((g.data ++ "<a>x</a>".data).length + 1)
      (g.data ++ "<a>x</a>".data) []
      = .error ("工具 't' 块中在标签前存在格式错误的非标签内容: '" ++ pyStrip g ++ "'") := by
    rw [parseParamsGo, hopen2]
    have hmk : (⟨g.data⟩ : String) = g := rfl
    simp only [hbefore, hmk, if_pos hnw]
    rfl
  show parseToolCallsGo (("<t>" ++ g ++ "<a>x</a></t>").length + 1)
      (("<t>" ++ g ++ "<a>x</a></t>").data) = _
  rw [hdata, parseToolCallsGo, hopen]
  simp only [List.drop_succ_cons, List.drop_zero, Nat.zero_add]
  rw [hclose]
  simp only [htake]
  rw [hparams]

/-- Witness for C8 at the concrete garbage string of the specification. -/
theorem C8_stray_text_before_parameter_raises_witness :
    parse_tool_calls ("<t>" ++ " garbage " ++ "<a>x</a></t>")
      = .error ("工具 't' 块中在标签前存在格式错误的非标签内容: '" ++ pyStrip " garbage " ++ "'") :=
  (C8_stray_text_before_parameter_raises " garbage " (by decide) (by decide)).1

/-! ## Patch algorithm: claims C2, C7, C3 -/

/-- C2: an `apply_diff` call is all-or-nothing.  Generally: whenever the
parse/locate pass raises, the file content is unchanged, and whenever it
succeeds the file is rewritten exactly once, to the fold of all blocks.
Concretely, each parse-failure class of the claim (missing `:start_line:`,
missing `-------`, missing `=======`, missing `>>>>>>> REPLACE`, and a block
matching nowhere in its window) raises and leaves the file unchanged, and a
well-formed diff applies every block. -/
theorem C2_apply_diff_all_or_nothing (vp : String) (orig : List String) (diff : String) :
    (∀ e, apply_diff_tool vp orig diff = .error e → fileAfterApplyDiff vp orig diff = orig) ∧
    (∀ ops,
      parseDiffGo vp orig ((pySplitlinesKeepends diff).length + 1) (pySplitlinesKeepends diff)
        = .ok ops →
      apply_diff_tool vp orig diff = .ok ((sortOpsDesc ops).foldl applyDiffOp orig) ∧
      fileAfterApplyDiff vp orig diff = (sortOpsDesc ops).foldl applyDiffOp orig) ∧
    (apply_diff_tool "f" ["a\n", "b\n", "c\n"]
        "<<<<<<< SEARCH\nno-start\n-------\nb\n=======\nB\n>>>>>>> REPLACE\n"
      = .error "无效的 diff 格式: SEARCH 块后缺少 ':start_line:'。") ∧
    (apply_diff_tool "f" ["a\n", "b\n", "c\n"]
        "<<<<<<< SEARCH\n:start_line:2\nb\n=======\nB\n>>>>>>> REPLACE\n"
      = .error "无效的 diff 格式: SEARCH 块后缺少 '-------' 分隔符。") ∧
    (apply_diff_tool "f" ["a\n", "b\n", "c\n"]
        "<<<<<<< SEARCH\n:start_line:2\n-------\nb\nB\n>>>>>>> REPLACE\n"
      = .error "无效的 diff 格式: SEARCH 内容后缺少 '=======' 分隔符。") ∧
    (apply_diff_tool "f" ["a\n", "b\n", "c\n"]
        "<<<<<<< SEARCH\n:start_line:2\n-------\nb\n=======\nB\n"
      = .error "无效的 diff 格式: REPLACE 内容后缺少 '>>>>>>> REPLACE' 结束标记。") ∧
    ((apply_diff_tool "f" ["a\n", "b\n", "c\n"]
        "<<<<<<< SEARCH\n:start_line:2\n-------\nz\n=======\nB\n>>>>>>> REPLACE\n").isOk
      = false) ∧
    (fileAfterApplyDiff "f" ["a\n", "b\n", "c\n"]
        "<<<<<<< SEARCH\n:start_line:2\n-------\nz\n=======\nB\n>>>>>>> REPLACE\n"
      = ["a\n", "b\n", "c\n"]) ∧
    (apply_diff_tool "f" ["a\n", "b\n", "c\n"]
        "<<<<<<< SEARCH\n:start_line:2\n-------\nb\n=======\nB\n>>>>>>> REPLACE\n"
      = .ok ["a\n", "B\n", "c\n"]) := by
  refine ⟨?_, ?_, by decide, by decide, by decide, by decide, by decide, by decide, by decide⟩
  · intro e h
    simp only [fileAfterApplyDiff, h]
  · intro ops h
    have happ : apply_diff_tool vp orig diff = .ok ((sortOpsDesc ops).foldl applyDiffOp orig) := by
      show Except.map (fun ops => List.foldl applyDiffOp orig (sortOpsDesc ops))
        (parseDiffGo vp orig ((pySplitlinesKeepends diff).length + 1) (pySplitlinesKeepends diff))
        = Except.ok (List.foldl applyDiffOp orig (sortOpsDesc ops))
      rw [h]
      rfl
    exact ⟨happ, by simp only [fileAfterApplyDiff, happ]⟩

/-- Witness for C2 at concrete inputs, exercising both implications. -/
theorem C2_apply_diff_all_or_nothing_witness :
    fileAfterApplyDiff "f" ["a\n", "b\n", "c\n"]
        "<<<<<<< SEARCH\n:start_line:2\n-------\nb\n=======\nB\n"
      = ["a\n", "b\n", "c\n"] ∧
    apply_diff_tool "f" ["a\n", "b\n", "c\n"]
        "<<<<<<< SEARCH\n:start_line:2\n-------\nb\n=======\nB\n>>>>>>> REPLACE\n"
      = .ok ((sortOpsDesc [⟨1, 1, "B\n"⟩]).foldl applyDiffOp ["a\n", "b\n", "c\n"]) :=
  ⟨(C2_apply_diff_all_or_nothing "f" ["a\n", "b\n", "c\n"]
        "<<<<<<< SEARCH\n:start_line:2\n-------\nb\n=======\nB\n").1
      "无效的 diff 格式: REPLACE 内容后缺少 '>>>>>>> REPLACE' 结束标记。" (by decide),
    ((C2_apply_diff_all_or_nothing "f" ["a\n", "b\n", "c\n"]
        "<<<<<<< SEARCH\n:start_line:2\n-------\nb\n=======\nB\n>>>>>>> REPLACE\n").2.1
      [⟨1, 1, "B\n"⟩] (by decide)).1⟩

theorem insertDesc_perm (op : DiffOp) (l : List DiffOp) :
    List.Perm (insertDesc op l) (op :: l) := by
  induction l with
  | nil => exact List.Perm.refl _
  | cons o rest ih =>
    unfold insertDesc
    by_cases h : op.start_idx ≤ o.start_idx
    · rw [if_pos h]
      exact (ih.cons o).trans (List.Perm.swap op o rest)
    · rw [if_neg h]

theorem foldl_insertDesc_perm (ops acc : List DiffOp) :
    List.Perm (ops.foldl (fun l op => insertDesc op l) acc) (acc ++ ops) := by
  induction ops generalizing acc with
  | nil => simp
  | cons op rest ih =>
    simp only [List.foldl_cons]
    have h1 := ih (insertDesc op acc)
    have h2 : List.Perm (insertDesc op acc ++ rest) ((op :: acc) ++ rest) :=
      (insertDesc_perm op acc).append_right rest
    have h3 : List.Perm ((op :: acc) ++ rest) (acc ++ op :: rest) := by
      simp only [List.cons_append]
      exact List.perm_middle.symm
    exact (h1.trans h2).trans h3

theorem mem_insertDesc {x op : DiffOp} {l : List DiffOp} :
    x ∈ insertDesc op l ↔ x = op ∨ x ∈ l := by
  induction l with
  | nil => simp [insertDesc]
  | cons o rest ih =>
    unfold insertDesc
    by_cases h : op.start_idx ≤ o.start_idx
    · rw [if_pos h]
      simp only [List.mem_cons, ih]
      tauto
    · rw [if_neg h]
      exact List.mem_cons

theorem insertDesc_sorted (op : DiffOp) (l : List DiffOp)
    (h : l.Pairwise (fun a b => b.start_idx ≤ a.start_idx)) :
    (insertDesc op l).Pairwise (fun a b => b.start_idx ≤ a.start_idx) := by
  induction l with
  | nil => simp [insertDesc]
  | cons o rest ih =>
    rw [List.pairwise_cons] at h
    unfold insertDesc
    by_cases hle : op.start_idx ≤ o.start_idx
    · rw [if_pos hle]
      rw [List.pairwise_cons]
      refine ⟨fun x hx => ?_, ih h.2⟩
      rcases mem_insertDesc.mp hx with rfl | hx
      · exact hle
      · exact h.1 x hx
    · rw [if_neg hle]
      rw [List.pairwise_cons]
      refine ⟨fun x hx => ?_, List.pairwise_cons.mpr h⟩
      rcases List.mem_cons.mp hx with rfl | hx
      · omega
      · exact Nat.le_trans (h.1 x hx) (by omega)

theorem sortOpsDesc_sorted_aux (ops acc : List DiffOp)
    (hacc : acc.Pairwise (fun a b => b.start_idx ≤ a.start_idx)) :
    (ops.foldl (fun l op => insertDesc op l) acc).Pairwise
      (fun a b => b.start_idx ≤ a.start_idx) := by
  induction ops generalizing acc with
  | nil => simpa using hacc
  | cons op rest ih =>
    simp only [List.foldl_cons]
    exact ih (insertDesc op acc) (insertDesc_sorted op acc hacc)

theorem find?_range'_first {p : Nat → Bool} :
    ∀ n lo i, (List.range' lo n).find? p = some i →
      lo ≤ i ∧ i < lo + n ∧ p i = true ∧ ∀ j, lo ≤ j → j < i → p j = false := by
  intro n
  induction n with
  | zero => intro lo i h; simp at h
  | succ n ih =>
    intro lo i h
    rw [List.range'_succ] at h
    by_cases hp : p lo
    · rw [List.find?_cons_of_pos _ hp] at h
      obtain rfl : lo = i := by simpa using h
      exact ⟨Nat.le_refl _, by omega, hp, fun j h1 h2 => by omega⟩
    · rw [List.find?_cons_of_neg _ hp] at h
      obtain ⟨h1, h2, h3, h4⟩ := ih (lo + 1) i h
      refine ⟨by omega, by omega, h3, fun j hj1 hj2 => ?_⟩
      by_cases hjl : j = lo
      · subst hjl
        exact Bool.eq_false_iff.mpr hp
      · exact h4 j (by omega) hj2

theorem mem_range'_one {m s n : Nat} : m ∈ List.range' s n ↔ s ≤ m ∧ m < s + n := by
  rw [List.mem_range']
  constructor
  · rintro ⟨i, hi, rfl⟩
    omega
  · intro ⟨h1, h2⟩
    exact ⟨m - s, by omega, by omega⟩

theorem locateBlock_eq (vp : String) (orig : List String) (sln : Int) (sc : String) :
    locateBlock vp orig sln sc =
      if sln - 1 < 0 ∨ orig.length < (sln - 1).toNat + (pySplitlinesKeepends sc).length then
        .error (outOfBoundsMsg vp sln (pySplitlinesKeepends sc).length orig.length)
      else
        match (searchWindow orig.length (pySplitlinesKeepends sc).length (sln - 1).toNat).find?
            (windowMatchesAt orig (pySplitlinesKeepends sc)) with
        | some i => .ok i
        | none =>
          .error (noMatchMsg vp sln (pySplitlinesKeepends sc)
            ((orig.drop (sln - 1).toNat).take (pySplitlinesKeepends sc).length)
            (((orig.drop (sln - 1).toNat).take (pySplitlinesKeepends sc).length).map pyStrip)
            ((pySplitlinesKeepends sc).map pyStrip)) := rfl

/-- C3 counterexample: with file lines `["b\n","b\n","c\n"]` and a block
declaring start line 2 with search content `"b\n"`, the stripped comparison at
the declared offset succeeds, yet the block is applied at line 1: the code
never tries the declared offset first, so the claim's "first tries an exact
... comparison at the declared 1-based start line; only if that fails is a
... window ... scanned" is false at this input. -/
theorem C3_counterexample_no_declared_offset_priority :
    windowMatchesAt ["b\n", "b\n", "c\n"] ["b\n"] 1 = true ∧
    locateBlock "f" ["b\n", "b\n", "c\n"] 2 "b\n" = .ok 0 ∧
    apply_diff_tool "f" ["b\n", "b\n", "c\n"]
        "<<<<<<< SEARCH\n:start_line:2\n-------\nb\n=======\nB\n>>>>>>> REPLACE\n"
      = .ok ["B\n", "b\n", "c\n"] ∧
    (["B\n", "b\n", "c\n"] : List String) ≠ ["b\n", "B\n", "c\n"] := by
  refine ⟨by decide, by decide, by decide, by decide⟩

/-- C3 (amended): block matching scans the whole ±5 window (clamped to the
file) low-to-high, with no separate first try at the declared offset: the
block lands on the lowest window offset whose per-line stripped content equals
the stripped search content, even when the declared offset also matches; when
no offset in the window matches, the block fails with the diagnostic that
enumerates the mismatching stripped line pairs at the declared offset and the
differing line counts. -/
theorem C3_window_scan_lowest_offset_wins (vp : String) (orig : List String) (sln : Int)
    (sc : String) :
    (∀ i, locateBlock vp orig sln sc = .ok i →
      i ∈ searchWindow orig.length (pySplitlinesKeepends sc).length (sln - 1).toNat ∧
      windowMatchesAt orig (pySplitlinesKeepends sc) i = true ∧
      ∀ j ∈ searchWindow orig.length (pySplitlinesKeepends sc).length (sln - 1).toNat,
        j < i → windowMatchesAt orig (pySplitlinesKeepends sc) j = false) ∧
    (¬ (sln - 1 < 0 ∨ orig.length < (sln - 1).toNat + (pySplitlinesKeepends sc).length) →
      (∀ j ∈ searchWindow orig.length (pySplitlinesKeepends sc).length (sln - 1).toNat,
        windowMatchesAt orig (pySplitlinesKeepends sc) j = false) →
      locateBlock vp orig sln sc
        = .error (noMatchMsg vp sln (pySplitlinesKeepends sc)
            ((orig.drop (sln - 1).toNat).take (pySplitlinesKeepends sc).length)
            (((orig.drop (sln - 1).toNat).take (pySplitlinesKeepends sc).length).map pyStrip)
            ((pySplitlinesKeepends sc).map pyStrip))) := by
  constructor
  · intro i hok
    rw [locateBlock_eq] at hok
    split at hok
    · exact absurd hok (by simp)
    · revert hok
      cases hfind : (searchWindow orig.length (pySplitlinesKeepends sc).length
          (sln - 1).toNat).find? (windowMatchesAt orig (pySplitlinesKeepends sc)) with
      | none => intro hok; exact absurd hok (by simp)
      | some k =>
        intro hok
        obtain rfl : k = i := by simpa using hok
        unfold searchWindow at hfind ⊢
        obtain ⟨h1, h2, h3, h4⟩ := find?_range'_first _ _ _ hfind
        refine ⟨mem_range'_one.mpr ⟨h1, h2⟩, h3, fun j hj hlt => ?_⟩
        exact h4 j (mem_range'_one.mp hj).1 hlt
  · intro hbounds hnone
    rw [locateBlock_eq, if_neg hbounds,
      List.find?_eq_none.mpr (fun x hx => by simp [hnone x hx])]

/-- Witness for C3 at concrete inputs, exercising both implications. -/
theorem C3_window_scan_lowest_offset_wins_witness :
    (0 ∈ searchWindow 3 1 1 ∧ windowMatchesAt ["b\n", "b\n", "c\n"] ["b\n"] 0 = true) ∧
    locateBlock "f" ["a\n", "x\n", "c\n"] 2 "b\n"
      = .error (noMatchMsg "f" 2 ["b\n"] ["x\n"] ["x"] ["b"]) :=
  ⟨⟨((C3_window_scan_lowest_offset_wins "f" ["b\n", "b\n", "c\n"] 2 "b\n").1 0 (by decide)).1,
    ((C3_window_scan_lowest_offset_wins "f" ["b\n", "b\n", "c\n"] 2 "b\n").1 0 (by decide)).2.1⟩,
    (C3_window_scan_lowest_offset_wins "f" ["a\n", "x\n", "c\n"] 2 "b\n").2
      (by decide) (by decide)⟩

/-- C7: once located, the edit blocks of one call are applied in descending
order of resolved start offset.  Generally: the applied order `sortOpsDesc
ops` is a permutation of the parsed blocks that is pairwise descending in
`start_idx`.  Concretely: a diff listing a block at line 3 before a block at
line 10 parses to `[block3, block10]`, is reordered to `[block10, block3]`,
and the call's result equals applying the line-10 block first and the line-3
block second. -/
theorem C7_descending_application_order (ops : List DiffOp) :
    ((sortOpsDesc ops).Pairwise (fun a b => b.start_idx ≤ a.start_idx)) ∧
    (List.Perm (sortOpsDesc ops) ops) ∧
    (parseDiffGo "f" ["l1\n","l2\n","l3\n","l4\n","l5\n","l6\n","l7\n","l8\n","l9\n","l10\n"]
        17
        (pySplitlinesKeepends
          "<<<<<<< SEARCH\n:start_line:3\n-------\nl3\n=======\nC\n>>>>>>> REPLACE\n<<<<<<< SEARCH\n:start_line:10\n-------\nl10\n=======\nX\n>>>>>>> REPLACE\n")
      = .ok [⟨2, 1, "C\n"⟩, ⟨9, 1, "X\n"⟩]) ∧
    (sortOpsDesc [⟨2, 1, "C\n"⟩, ⟨9, 1, "X\n"⟩] = [⟨9, 1, "X\n"⟩, ⟨2, 1, "C\n"⟩]) ∧
    (apply_diff_tool "f" ["l1\n","l2\n","l3\n","l4\n","l5\n","l6\n","l7\n","l8\n","l9\n","l10\n"]
        "<<<<<<< SEARCH\n:start_line:3\n-------\nl3\n=======\nC\n>>>>>>> REPLACE\n<<<<<<< SEARCH\n:start_line:10\n-------\nl10\n=======\nX\n>>>>>>> REPLACE\n"
      = .ok (applyDiffOp
          (applyDiffOp ["l1\n","l2\n","l3\n","l4\n","l5\n","l6\n","l7\n","l8\n","l9\n","l10\n"]
            ⟨9, 1, "X\n"⟩)
          ⟨2, 1, "C\n"⟩)) ∧
    (applyDiffOp
        (applyDiffOp ["l1\n","l2\n","l3\n","l4\n","l5\n","l6\n","l7\n","l8\n","l9\n","l10\n"]
          ⟨9, 1, "X\n"⟩)
        ⟨2, 1, "C\n"⟩
      = ["l1\n","l2\n","C\n","l4\n","l5\n","l6\n","l7\n","l8\n","l9\n","X\n"]) := by
  refine ⟨sortOpsDesc_sorted_aux ops [] (List.Pairwise.nil), ?_, by decide, by decide, by decide,
    by decide⟩
  simpa using foldl_insertDesc_perm ops []

/-! ## Inclusion resolution: claims C6 and C9

First a small toolkit of string-decomposition lemmas used to run the resolver
symbolically. -/

theorem strData_append (a b : String) : (a ++ b).data = a.data ++ b.data := by
  cases a
  cases b
  rfl

theorem strMk_eq_empty_iff (d : List Char) : (⟨d⟩ : String) = "" ↔ d = [] := by
  constructor
  · intro h
    have := congrArg String.data h
    simpa using this
  · intro h
    rw [h]

theorem str_ne_empty_iff_data (s : String) : s ≠ "" ↔ s.data ≠ [] := by
  cases s with
  | mk d => simp [strMk_eq_empty_iff]

theorem empty_strAppend (s : String) : "" ++ s = s := by
  cases s
  rfl

theorem splitCharsOn_all_ne {sep : Char} {cs : List Char} (h : ∀ c ∈ cs, c ≠ sep) :
    splitCharsOn sep cs = [cs] := by
  induction cs with
  | nil => rfl
  | cons c rest ih =>
    unfold splitCharsOn
    rw [if_neg (h c (List.mem_cons_self c rest))]
    rw [ih (fun d hd => h d (List.mem_cons_of_mem c hd))]

theorem splitLines_single {s : String} (h : ∀ c ∈ s.data, c ≠ '\n') : splitLines s = [s] := by
  unfold splitLines
  rw [splitCharsOn_all_ne h]
  rfl

theorem pySplitlines_single {s : String} (h : ∀ c ∈ s.data, c ≠ '\n') (hne : s ≠ "") :
    pySplitlines s = [s] := by
  unfold pySplitlines
  rw [if_neg hne, splitLines_single h, if_neg (by simp [List.getLast?, hne])]

theorem takeWhile_append_all {p : Char → Bool} {l : List Char} (t : List Char)
    (h : ∀ c ∈ l, p c = true) : (l ++ t).takeWhile p = l ++ t.takeWhile p := by
  induction l with
  | nil => rfl
  | cons c rest ih =>
    simp [List.cons_append, List.takeWhile_cons, h c (List.mem_cons_self c rest),
      ih (fun d hd => h d (List.mem_cons_of_mem c hd))]

theorem dropWhile_append_all {p : Char → Bool} {l : List Char} (t : List Char)
    (h : ∀ c ∈ l, p c = true) : (l ++ t).dropWhile p = t.dropWhile p := by
  induction l with
  | nil => rfl
  | cons c rest ih =>
    simp [List.cons_append, List.dropWhile_cons, h c (List.mem_cons_self c rest),
      ih (fun d hd => h d (List.mem_cons_of_mem c hd))]

theorem takeWhile_all_eq {p : Char → Bool} {l : List Char} (h : ∀ c ∈ l, p c = true) :
    l.takeWhile p = l := by
  have := takeWhile_append_all (p := p) (l := l) [] h
  simpa using this

theorem dropWhile_all_eq {p : Char → Bool} {l : List Char} (h : ∀ c ∈ l, p c = true) :
    l.dropWhile p = [] := by
  have := dropWhile_append_all (p := p) (l := l) [] h
  simpa using this

theorem isPrefixOf_self_append (l t : List Char) : l.isPrefixOf (l ++ t) = true := by
  induction l with
  | nil => simp [List.isPrefixOf]
  | cons c rest ih => simp [List.isPrefixOf, ih]

/-- The directive line `[include](<r>)` parses to an unindented, unquoted
match with path spec `r`. -/
theorem parseInclusionLine_directive (r : String) (hne : r ≠ "")
    (hrp : ∀ c ∈ r.data, c ≠ ')') :
    parseInclusionLine ("[include](" ++ r ++ ")") = some ("", false, r) := by
  have hdata : ("[include](" ++ r ++ ")").data = "[include](".data ++ (r.data ++ [')']) := by
    rw [strData_append, strData_append]
    simp
  have hrd : r.data ≠ [] := fun hcon => (str_ne_empty_iff_data r).mp hne hcon
  have htw : List.takeWhile (fun x => !decide (x = ')')) (r.data ++ [')']) = r.data := by
    have := takeWhile_append_all (p := fun x => !decide (x = ')')) (l := r.data) [')']
      (fun c hc => by simp [hrp c hc])
    simpa using this
  have hdw : List.dropWhile (fun x => !decide (x = ')')) (r.data ++ [')']) = [')'] := by
    have := dropWhile_append_all (p := fun x => !decide (x = ')')) (l := r.data) [')']
      (fun c hc => by simp [hrp c hc])
    simpa using this
  unfold parseInclusionLine
  rw [hdata]
  simp [List.cons_append, List.takeWhile_cons, List.dropWhile_cons, List.isPrefixOf,
    htw, hdw, hrd]

/-- Any line of the shape of an inline error marker is not an inclusion
directive, whatever follows the marker text. -/
theorem parseInclusionLine_marker (t : String) :
    parseInclusionLine ("> **ERROR**: " ++ t) = none := by
  have hdata : ("> **ERROR**: " ++ t).data
      = '>' :: ' ' :: '*' :: '*' :: 'E' :: 'R' :: 'R' :: 'O' :: 'R' :: '*' :: '*' :: ':' :: ' '
        :: t.data := by
    cases t
    rfl
  unfold parseInclusionLine
  rw [hdata]
  simp [List.takeWhile_cons, List.dropWhile_cons, List.isPrefixOf]

theorem splitHash_no_hash (s : String) (h : ∀ c ∈ s.data, c ≠ '#') :
    splitHash s = (s, none) := by
  unfold splitHash
  rw [takeWhile_all_eq (fun c hc => by simp [h c hc]),
    dropWhile_all_eq (fun c hc => by simp [h c hc])]

theorem forall_chars_append {P : Char → Prop} {a b : String}
    (ha : ∀ c ∈ a.data, P c) (hb : ∀ c ∈ b.data, P c) : ∀ c ∈ (a ++ b).data, P c := by
  rw [strData_append]
  intro c hc
  rcases List.mem_append.mp hc with h | h
  · exact ha c h
  · exact hb c h

theorem strAppend_ne_empty_left {a : String} (b : String) (ha : a ≠ "") : a ++ b ≠ "" := by
  rw [str_ne_empty_iff_data, strData_append]
  exact fun hcon => (str_ne_empty_iff_data a).mp ha (List.append_eq_nil.mp hcon).1

/-- Re-indenting with an empty indent is the identity on single-line text. -/
theorem applyIndent_empty {m : String} (hm : ∀ c ∈ m.data, c ≠ '\n') (hne : m ≠ "") :
    applyIndent "" m = m := by
  unfold applyIndent
  rw [if_neg hne, pySplitlines_single hm hne]
  simp only [List.map_cons, List.map_nil, joinWith]
  exact empty_strAppend m

/-! ### One-step unfolding lemmas for the resolution machinery -/

theorem runResolve_res_nomem (fs : List (String × String)) (fuel : Nat) (md abs base : String)
    (stack : List String) (h : abs ∉ stack) :
    runResolve fs (fuel + 1) (.res md abs base stack)
      = runResolve fs fuel (.loop md base (abs :: stack)) := by
  simp only [runResolve]
  rw [if_neg h]

theorem runResolve_res_mem (fs : List (String × String)) (fuel : Nat) (md abs base : String)
    (stack : List String) (h : abs ∈ stack) :
    runResolve fs (fuel + 1) (.res md abs base stack)
      = .text ("> **ERROR**: " ++ ("Circular inclusion detected: " ++ abs
            ++ " is already being processed."))
          ["Circular inclusion detected: " ++ abs ++ " is already being processed."] := by
  simp only [runResolve]
  rw [if_pos h]

theorem runResolve_loop_none (fs : List (String × String)) (fuel : Nat) (content base : String)
    (stack : List String) (h : findInclGo 0 (splitLines content) = none) :
    runResolve fs (fuel + 1) (.loop content base stack) = .text content [] := by
  simp only [runResolve, h]

theorem runResolve_loop_include_whole (fs : List (String × String)) (fuel : Nat)
    (content base : String) (stack : List String) (i : Nat) (indent : String) (quoted : Bool)
    (ps rel fc : String)
    (h : findInclGo 0 (splitLines content) = some (i, indent, quoted, ps))
    (hh : splitHash ps = (rel, none))
    (hlk : List.lookup (joinPath base rel) fs = some fc) :
    runResolve fs (fuel + 1) (.loop content base stack)
      = (let replErrs :=
            (runResolve fs fuel (.res fc (joinPath base rel)
              (dirname (joinPath base rel)) stack)).asText
         let repl2 := if quoted then format_as_blockquote replErrs.1 else replErrs.1
         let finalRepl := applyIndent indent repl2
         let nc := joinWith "\n" ((splitLines content).take i ++ [finalRepl]
            ++ (splitLines content).drop (i + 1))
         prependErrs replErrs.2 (runResolve fs fuel (.loop nc base stack))) := by
  simp only [runResolve, h, hh, hlk]

theorem runResolve_loop_include_msg (fs : List (String × String)) (fuel : Nat)
    (content base : String) (stack : List String) (i : Nat) (indent : String) (quoted : Bool)
    (ps rel istr fc : String) (n : Int)
    (h : findInclGo 0 (splitLines content) = some (i, indent, quoted, ps))
    (hh : splitHash ps = (rel, some istr))
    (hint : parseInt istr = some n)
    (hlk : List.lookup (joinPath base rel) fs = some fc) :
    runResolve fs (fuel + 1) (.loop content base stack)
      = (let d := (runResolve fs fuel (.parseR fc (joinPath base rel) stack)).asDoc
         let sel := selectMessageContent d.conversation rel n
         let repl2 := if quoted then format_as_blockquote sel.1 else sel.1
         let finalRepl := applyIndent indent repl2
         let nc := joinWith "\n" ((splitLines content).take i ++ [finalRepl]
            ++ (splitLines content).drop (i + 1))
         prependErrs (d.errors ++ sel.2) (runResolve fs fuel (.loop nc base stack))) := by
  simp only [runResolve, h, hh, hint, hlk]

theorem runResolve_parseR (fs : List (String × String)) (fuel : Nat) (md sp : String)
    (stack : List String) :
    runResolve fs (fuel + 1) (.parseR md sp stack)
      = .doc { parseBody ((runResolve fs fuel (.res md sp (dirname sp) stack)).asText.1) with
          errors := (runResolve fs fuel (.res md sp (dirname sp) stack)).asText.2
            ++ (parseBody ((runResolve fs fuel (.res md sp (dirname sp) stack)).asText.1)).errors } := by
  simp only [runResolve]

/-- C6: for inclusion chains containing a self-reference, resolution
terminates with exactly one inline cycle-error marker per cyclic edge.
Part one is the direct self-inclusion for an arbitrary base directory and
file name: for every sufficient fuel the result is exactly the one marker
(termination is fuel-independence).  Parts two and three run a transitive
two-file cycle at two fuels: its single cyclic edge produces exactly one
marker. -/
theorem C6_cycle_detection (base r : String)
    (hrne : r ≠ "")
    (hrp : ∀ c ∈ r.data, c ≠ ')')
    (hrh : ∀ c ∈ r.data, c ≠ '#')
    (hrn : ∀ c ∈ r.data, c ≠ '\n')
    (hbn : ∀ c ∈ base.data, c ≠ '\n') :
    (∀ fuel, 3 ≤ fuel →
      _resolve_inclusions [(base ++ "/" ++ r, "[include](" ++ r ++ ")")] fuel
          ("[include](" ++ r ++ ")") (base ++ "/" ++ r) base []
        = ("> **ERROR**: " ++ ("Circular inclusion detected: " ++ (base ++ "/" ++ r)
              ++ " is already being processed."),
           ["Circular inclusion detected: " ++ (base ++ "/" ++ r)
              ++ " is already being processed."])) ∧
    (_resolve_inclusions [("/d/a.md", "[include](b.md)"), ("/d/b.md", "[include](a.md)")] 10
        "[include](b.md)" "/d/a.md" "/d" []
      = ("> **ERROR**: Circular inclusion detected: /d/a.md is already being processed.",
         ["Circular inclusion detected: /d/a.md is already being processed."])) ∧
    (_resolve_inclusions [("/d/a.md", "[include](b.md)"), ("/d/b.md", "[include](a.md)")] 11
        "[include](b.md)" "/d/a.md" "/d" []
      = ("> **ERROR**: Circular inclusion detected: /d/a.md is already being processed.",
         ["Circular inclusion detected: /d/a.md is already being processed."])) := by
  refine ⟨?_, by decide, by decide⟩
  intro fuel hf
  obtain ⟨k, rfl⟩ : ∃ k, fuel = k + 3 := ⟨fuel - 3, by omega⟩
  have hcontent_nl : ∀ c ∈ ("[include](" ++ r ++ ")").data, c ≠ '\n' :=
    forall_chars_append (forall_chars_append (by decide) hrn) (by decide)
  have hsplitC : splitLines ("[include](" ++ r ++ ")") = ["[include](" ++ r ++ ")"] :=
    splitLines_single hcontent_nl
  have hfind : findInclGo 0 (splitLines ("[include](" ++ r ++ ")"))
      = some (0, "", false, r) := by
    rw [hsplitC]
    simp only [findInclGo, parseInclusionLine_directive r hrne hrp]
  have hhash : splitHash r = (r, none) := splitHash_no_hash r hrh
  have hlk : List.lookup (joinPath base r)
      [(base ++ "/" ++ r, "[include](" ++ r ++ ")")] = some ("[include](" ++ r ++ ")") := by
    show List.lookup (base ++ "/" ++ r) _ = _
    simp [List.lookup]
  have hmem : joinPath base r ∈ [base ++ "/" ++ r] := List.mem_singleton_self _
  have hmn : ∀ c ∈ ("> **ERROR**: " ++ ("Circular inclusion detected: "
      ++ (base ++ "/" ++ r) ++ " is already being processed.")).data, c ≠ '\n' := by
    refine forall_chars_append (by decide) ?_
    refine forall_chars_append (forall_chars_append (by decide) ?_) (by decide)
    exact forall_chars_append (forall_chars_append hbn (by decide)) hrn
  have hmne : ("> **ERROR**: " ++ ("Circular inclusion detected: "
      ++ (base ++ "/" ++ r) ++ " is already being processed.")) ≠ "" :=
    strAppend_ne_empty_left _ (by decide)
  have hsplitM : splitLines ("> **ERROR**: " ++ ("Circular inclusion detected: "
      ++ (base ++ "/" ++ r) ++ " is already being processed."))
      = ["> **ERROR**: " ++ ("Circular inclusion detected: "
          ++ (base ++ "/" ++ r) ++ " is already being processed.")] :=
    splitLines_single hmn
  have hfindM : findInclGo 0 (splitLines ("> **ERROR**: " ++ ("Circular inclusion detected: "
      ++ (base ++ "/" ++ r) ++ " is already being processed."))) = none := by
    rw [hsplitM]
    simp only [findInclGo, parseInclusionLine_marker]
  have happly : applyIndent "" ("> **ERROR**: " ++ ("Circular inclusion detected: "
      ++ (base ++ "/" ++ r) ++ " is already being processed."))
      = "> **ERROR**: " ++ ("Circular inclusion detected: "
          ++ (base ++ "/" ++ r) ++ " is already being processed.") :=
    applyIndent_empty hmn hmne
  have e3 : k + 3 = (k + 2) + 1 := rfl
  have e2 : k + 2 = (k + 1) + 1 := rfl
  unfold _resolve_inclusions
  rw [e3, runResolve_res_nomem _ _ _ _ _ _ (List.not_mem_nil _), e2,
    runResolve_loop_include_whole _ _ _ _ _ 0 "" false r r _ hfind hhash hlk,
    runResolve_res_mem _ _ _ _ _ _ hmem]
  simp only [joinPath, ResolveOut.asText, Bool.false_eq_true, if_false, happly, hsplitC,
    List.take, List.drop, List.nil_append, List.append_nil, joinWith]
  rw [runResolve_loop_none _ _ _ _ _ hfindM]
  simp only [prependErrs, ResolveOut.asText, List.append_nil]

/-- C9: message-index inclusion.  General parts, over every conversation:
a natural index in range substitutes exactly the indexed message's content; a
negative index counts from the end, `-1` selecting the last message; an
out-of-range index and an empty conversation substitute an inline error
marker and record an error.  Concrete parts: end-to-end resolver runs with a
2-message target for indices 0, -1 and 5; an empty target; continuation of
the whole parse past a failed index; and a target whose selected message
content was itself produced by recursive inclusion resolution. -/
theorem C9_message_index_inclusion (msgs : List ChatMessage) (rel : String) :
    (∀ i : Nat, i < msgs.length →
      selectMessageContent msgs rel (i : Int) = ((msgs.getD i ⟨"", "", []⟩).content, [])) ∧
    (msgs ≠ [] →
      selectMessageContent msgs rel (-1)
        = ((msgs.getD (msgs.length - 1) ⟨"", "", []⟩).content, [])) ∧
    (∀ i : Nat, msgs ≠ [] → msgs.length ≤ i →
      selectMessageContent msgs rel (i : Int)
        = ("> **ERROR**: " ++ ("Message index " ++ toString (i : Int) ++ " (resolved to "
              ++ toString (i : Int) ++ ") out of bounds for " ++ rel ++ " ("
              ++ toString msgs.length ++ " messages)."),
           ["Message index " ++ toString (i : Int) ++ " (resolved to " ++ toString (i : Int)
              ++ ") out of bounds for " ++ rel ++ " (" ++ toString msgs.length
              ++ " messages)."])) ∧
    (∀ n : Int, selectMessageContent [] rel n
      = ("> **ERROR**: " ++ ("No messages found in '" ++ rel ++ "' to select index "
            ++ toString n ++ "."),
         ["No messages found in '" ++ rel ++ "' to select index " ++ toString n ++ "."])) ∧
    (_resolve_inclusions [("/d/t.md", "## alice\n\n> one\n\n## bob\n\n> two\n")] 10
        "[include](t.md#0)" "/d/main.md" "/d" [] = ("> one", [])) ∧
    (_resolve_inclusions [("/d/t.md", "## alice\n\n> one\n\n## bob\n\n> two\n")] 10
        "[include](t.md#-1)" "/d/main.md" "/d" [] = ("> two", [])) ∧
    (_resolve_inclusions [("/d/t.md", "## alice\n\n> one\n\n## bob\n\n> two\n")] 10
        "[include](t.md#5)" "/d/main.md" "/d" []
      = ("> **ERROR**: Message index 5 (resolved to 5) out of bounds for t.md (2 messages).",
         ["Message index 5 (resolved to 5) out of bounds for t.md (2 messages)."])) ∧
    (_resolve_inclusions [("/d/t.md", "hello\n")] 10 "[include](t.md#0)" "/d/main.md" "/d" []
      = ("> **ERROR**: No messages found in 't.md' to select index 0.",
         ["No messages found in 't.md' to select index 0."])) ∧
    (parseDocument [("/d/t.md", "## alice\n\n> one\n\n## bob\n\n> two\n")] 12
        "[include](t.md#5)\n\n## carol\n\n> hi\n" "/d/main.md"
      = { session_config := none, session_setup_code := none,
          conversation := [⟨"carol", "> hi", []⟩],
          errors := ["Message index 5 (resolved to 5) out of bounds for t.md (2 messages)."] }) ∧
    (_resolve_inclusions [("/d/t.md", "## a\n\n> [include](x.md)\n"), ("/d/x.md", "hello")] 10
        "[include](t.md#0)" "/d/main.md" "/d" [] = ("> hello", [])) := by
  refine ⟨?_, ?_, ?_, ?_, by decide, by decide, by decide, by decide, by decide, by decide⟩
  · intro i h
    have h2 : ¬ ((i : Int) < 0) := by omega
    have h3 : (0 : Int) ≤ (i : Int) ∧ (i : Int) < (msgs.length : Int) := by
      refine ⟨by omega, ?_⟩
      exact_mod_cast h
    have h4 : ((i : Int)).toNat = i := by omega
    unfold selectMessageContent
    rw [if_neg (by rintro rfl; simp at h)]
    simp [h2, h3, h4]
  · intro hne
    have hlen : 0 < msgs.length := List.length_pos.mpr hne
    have h2 : (-1 : Int) < 0 := by omega
    have h3 : (0 : Int) ≤ (msgs.length : Int) + -1 ∧ (msgs.length : Int) + -1
        < (msgs.length : Int) := by omega
    have h4 : ((msgs.length : Int) + -1).toNat = msgs.length - 1 := by omega
    unfold selectMessageContent
    rw [if_neg hne]
    simp [h2, h3, h4]
  · intro i hne h
    have h2 : ¬ ((i : Int) < 0) := by omega
    have h3 : ¬ ((0 : Int) ≤ (i : Int) ∧ (i : Int) < (msgs.length : Int)) := by
      rintro ⟨-, hcon⟩
      have : msgs.length ≤ i := h
      omega
    unfold selectMessageContent
    rw [if_neg hne]
    simp [h2, h3]
    exact h
  · intro n
    rfl

/-- Witness for C9: the general selection parts applied to a concrete
conversation. -/
theorem C9_message_index_inclusion_witness :
    selectMessageContent [⟨"a", "> one", []⟩, ⟨"b", "> two", []⟩] "t.md" ((1 : Nat) : Int)
      = ("> two", []) ∧
    selectMessageContent [⟨"a", "> one", []⟩, ⟨"b", "> two", []⟩] "t.md" (-1)
      = ("> two", []) ∧
    selectMessageContent [⟨"a", "> one", []⟩, ⟨"b", "> two", []⟩] "t.md" ((5 : Nat) : Int)
      = ("> **ERROR**: " ++ ("Message index " ++ toString ((5 : Nat) : Int) ++ " (resolved to "
            ++ toString ((5 : Nat) : Int) ++ ") out of bounds for " ++ "t.md" ++ " ("
            ++ toString ([⟨"a", "> one", []⟩, ⟨"b", "> two", []⟩] : List ChatMessage).length
            ++ " messages)."),
         ["Message index " ++ toString ((5 : Nat) : Int) ++ " (resolved to "
            ++ toString ((5 : Nat) : Int) ++ ") out of bounds for " ++ "t.md" ++ " ("
            ++ toString ([⟨"a", "> one", []⟩, ⟨"b", "> two", []⟩] : List ChatMessage).length
            ++ " messages)."]) :=
  ⟨(C9_message_index_inclusion [⟨"a", "> one", []⟩, ⟨"b", "> two", []⟩] "t.md").1 1
      (by decide),
    (C9_message_index_inclusion [⟨"a", "> one", []⟩, ⟨"b", "> two", []⟩] "t.md").2.1
      (by decide),
    (C9_message_index_inclusion [⟨"a", "> one", []⟩, ⟨"b", "> two", []⟩] "t.md").2.2.1 5
      (by decide) (by decide)⟩

/-! ## Round trip through append_message: claim C5

The block-quote extraction rule is the spec-modelled tokenizer above, which
preserves quote markers verbatim in the extracted content (spec §4.1 step 6,
and the comment at chat_doc_parser.py line 370-371); `append_message` puts a
fresh `"> "` before every content line (line 440).  Under these two rules the
content cannot round-trip: re-parsing returns the content with one more
block-quote marker per line, while speaker and metadata round-trip exactly. -/

/-- C5 counterexample: parsing a one-message document, appending a message
built from the parsed message's own speaker, content and metadata, and
re-parsing yields a last message whose speaker and metadata are identical but
whose content has gained a marker: `"> > hi" ≠ "> hi"`. -/
theorem C5_counterexample_content_gains_marker :
    (parseNoInc "## user\n\n> hi\n").conversation = [⟨"user", "> hi", []⟩] ∧
    (parseNoInc (append_message "## user\n\n> hi\n" ⟨"user", "> hi", []⟩)).conversation
      = [⟨"user", "> hi", []⟩, ⟨"user", "> > hi", []⟩] ∧
    ("> > hi" : String) ≠ "> hi" := by
  refine ⟨by decide, by decide, by decide⟩

theorem splitCharsOn_ne_nil (sep : Char) (d : List Char) : splitCharsOn sep d ≠ [] := by
  cases d with
  | nil => simp [splitCharsOn]
  | cons c rest =>
    unfold splitCharsOn
    by_cases h : c = sep
    · simp [h]
    · rw [if_neg h]
      cases hrec : splitCharsOn sep rest <;> simp

theorem joinWith_cons_of_ne_nil (sep x : String) {ls : List String} (h : ls ≠ []) :
    joinWith sep (x :: ls) = x ++ sep ++ joinWith sep ls := by
  cases ls with
  | nil => exact absurd rfl h
  | cons y t => rfl

theorem strMk_cons_append (c : Char) (h : List Char) (x : String) :
    (⟨c :: h⟩ : String) ++ x = ⟨c :: (h ++ x.data)⟩ := by
  cases x
  rfl

theorem strExt {a b : String} (h : a.data = b.data) : a = b := by
  cases a
  cases b
  exact congrArg String.mk h

theorem joinWith_splitCharsOn (d : List Char) :
    joinWith "\n" ((splitCharsOn '\n' d).map (⟨·⟩)) = ⟨d⟩ := by
  induction d with
  | nil => rfl
  | cons c rest ih =>
    unfold splitCharsOn
    by_cases h : c = '\n'
    · subst h
      rw [if_pos rfl]
      simp only [List.map_cons]
      rw [joinWith_cons_of_ne_nil _ _ (by
        intro hcon
        exact splitCharsOn_ne_nil '\n' rest (by simpa using congrArg (List.map String.data) hcon))]
      rw [ih]
      show ("" ++ "\n") ++ (⟨rest⟩ : String) = _
      rfl
    · rw [if_neg h]
      cases hrec : splitCharsOn '\n' rest with
      | nil => exact absurd hrec (splitCharsOn_ne_nil '\n' rest)
      | cons hh tt =>
        rw [hrec] at ih
        simp only [List.map_cons]
        cases tt with
        | nil =>
          simp only [List.map_nil, joinWith] at ih ⊢
          rw [show (⟨c :: hh⟩ : String) = (⟨[c]⟩ : String) ++ (⟨hh⟩ : String) from rfl, ih]
          rfl
        | cons t2 ts =>
          simp only [List.map_cons] at ih ⊢
          rw [joinWith_cons_of_ne_nil _ _ (by simp)] at ih
          rw [joinWith_cons_of_ne_nil _ _ (by simp)]
          apply strExt
          have hd := congrArg String.data ih
          rw [strData_append, strData_append] at hd
          rw [strData_append, strData_append]
          have hd2 : hh ++ "\n".data
              ++ (joinWith "\n" ((⟨t2⟩ : String) :: List.map (fun x => (⟨x⟩ : String)) ts)).data
              = rest := hd
          rw [show ((⟨c :: hh⟩ : String).data) = c :: hh from rfl, ← hd2]
          simp

theorem joinWith_splitLines (x : String) : joinWith "\n" (splitLines x) = x := by
  unfold splitLines
  exact joinWith_splitCharsOn x.data

theorem skipWsL_ws_cons {c : Char} (h : isWsChar c = true) (rest : List Char) :
    skipWsL (c :: rest) = skipWsL rest := by
  simp [skipWsL, List.dropWhile_cons, h]

theorem skipWsL_nonws_cons {c : Char} (h : isWsChar c = false) (rest : List Char) :
    skipWsL (c :: rest) = c :: rest := by
  simp [skipWsL, List.dropWhile_cons, h]

theorem jsonItem_data (kv : String × String) :
    (jsonItem kv).data
      = ' ' :: ' ' :: '"' :: (kv.1.data
          ++ ('"' :: ':' :: ' ' :: '"' :: (kv.2.data ++ ['"']))) := by
  obtain ⟨k, v⟩ := kv
  cases k
  cases v
  simp [jsonItem, jsonQuote, strData_append]

theorem jsonReadStr_wf (k : String) (hk : ∀ ch ∈ k.data, ch ≠ '"') (rest : List Char) :
    jsonReadStr ('"' :: (k.data ++ '"' :: rest)) = some (k, rest) := by
  unfold jsonReadStr
  have htw : List.takeWhile (fun x => !decide (x = '"')) (k.data ++ '"' :: rest) = k.data := by
    have h1 := takeWhile_append_all (p := fun x => !decide (x = '"')) (l := k.data) ('"' :: rest)
      (fun c hc => by simp [hk c hc])
    rw [h1]
    simp [List.takeWhile_cons]
  have hdw : List.dropWhile (fun x => !decide (x = '"')) (k.data ++ '"' :: rest)
      = '"' :: rest := by
    have h1 := dropWhile_append_all (p := fun x => !decide (x = '"')) (l := k.data) ('"' :: rest)
      (fun c hc => by simp [hk c hc])
    rw [h1]
    simp [List.dropWhile_cons]
  simp [htw, hdw]

/-- `skipWsL` is idempotent. -/
theorem skipWsL_idem (X : List Char) : skipWsL (skipWsL X) = skipWsL X := by
  induction X with
  | nil => rfl
  | cons c r ih =>
    by_cases h : isWsChar c = true
    · rw [skipWsL_ws_cons h]
      exact ih
    · rw [skipWsL_nonws_cons (by simpa using h), skipWsL_nonws_cons (by simpa using h)]

theorem jsonPairsGo_skipWsL (f : Nat) (X : List Char) :
    jsonPairsGo (f + 1) (skipWsL X) = jsonPairsGo (f + 1) X := by
  rw [jsonPairsGo, jsonPairsGo, skipWsL_idem]

/-- The member-list reader inverts the serialization of a non-empty
well-formed flat object, for any whitespace prefix and any sufficient fuel. -/
theorem jsonPairsGo_roundTrip (m : List (String × String)) :
    ∀ fuel pre tail, wfMeta m → m ≠ [] → m.length ≤ fuel → (∀ c ∈ pre, isWsChar c = true) →
      jsonPairsGo fuel (pre ++ (joinWith ",\n" (m.map jsonItem)).data
          ++ ('\n' :: rbrace :: tail))
        = some (m, tail) := by
  induction m with
  | nil => intro _ _ _ _ hcon; exact absurd rfl hcon
  | cons kv rest ih =>
    intro fuel pre tail hwf hne hfuel hpre
    obtain ⟨f, rfl⟩ : ∃ f, fuel = f + 1 :=
      ⟨fuel - 1, by simp [List.length_cons] at hfuel; omega⟩
    obtain ⟨hk, hv⟩ := hwf kv (List.mem_cons_self kv rest)
    have hkq : ∀ ch ∈ kv.1.data, ch ≠ '"' := fun ch hc => (hk ch hc).1
    have hvq : ∀ ch ∈ kv.2.data, ch ≠ '"' := fun ch hc => (hv ch hc).1
    have hskip : ∀ X : List Char, skipWsL (pre ++ X) = skipWsL X :=
      fun X => dropWhile_append_all X hpre
    cases rest with
    | nil =>
      have hjoin : (joinWith ",\n" (List.map jsonItem [kv])).data = (jsonItem kv).data := rfl
      rw [jsonPairsGo, List.append_assoc, hskip, hjoin, jsonItem_data]
      simp only [List.cons_append, List.append_assoc, List.singleton_append,
        @skipWsL_ws_cons ' ' (by decide), @skipWsL_ws_cons '\n' (by decide),
        @skipWsL_nonws_cons '"' (by decide), @skipWsL_nonws_cons ':' (by decide),
        @skipWsL_nonws_cons rbrace (by decide),
        jsonReadStr_wf kv.1 hkq, jsonReadStr_wf kv.2 hvq]
      simp only [List.nil_append]
      rw [skipWsL_ws_cons (by decide), skipWsL_nonws_cons (by decide)]
      simp [rbrace]
    | cons kv2 rest2 =>
      have hjoin : (joinWith ",\n" (List.map jsonItem (kv :: kv2 :: rest2))).data
          = (jsonItem kv).data
            ++ (',' :: '\n' :: (joinWith ",\n" ((kv2 :: rest2).map jsonItem)).data) := by
        simp only [List.map_cons]
        rw [joinWith_cons_of_ne_nil _ _ (by simp)]
        rw [strData_append, strData_append]
        simp [List.append_assoc]
      rw [jsonPairsGo, List.append_assoc, hskip, hjoin, jsonItem_data]
      have hih := ih f ['\n'] tail
        (fun q hq => hwf q (List.mem_cons_of_mem kv hq))
        (by simp)
        (by simp [List.length_cons] at hfuel ⊢; omega)
        (by decide)
      simp only [List.cons_append, List.nil_append] at hih
      simp only [List.cons_append, List.append_assoc, List.singleton_append,
        @skipWsL_ws_cons ' ' (by decide), @skipWsL_ws_cons '\n' (by decide),
        @skipWsL_nonws_cons '"' (by decide), @skipWsL_nonws_cons ':' (by decide),
        @skipWsL_nonws_cons ',' (by decide),
        jsonReadStr_wf kv.1 hkq, jsonReadStr_wf kv.2 hvq]
      simp only [List.nil_append, @skipWsL_nonws_cons ',' (by decide)]
      simp only [List.map_cons] at hih
      simp [hih]

/-- Joining nonempty strings yields at least one character per element,
so element count is bounded by the joined length plus one. -/
theorem joinWith_length_le (sep : String) :
    ∀ l : List String, (∀ x ∈ l, x.data ≠ []) →
      l.length ≤ (joinWith sep l).data.length + 1 := by
  intro l
  induction l with
  | nil => intro _; simp
  | cons a t ih =>
    intro h
    cases t with
    | nil => simp [joinWith]
    | cons b t2 =>
      have ha := h a (List.mem_cons_self a (b :: t2))
      have h1 : 1 ≤ a.data.length := by
        cases hd : a.data with
        | nil => exact absurd hd ha
        | cons _ _ => simp [hd]
      have iht := ih (fun x hx => h x (List.mem_cons_of_mem a hx))
      rw [joinWith_cons_of_ne_nil sep a (by simp)]
      rw [strData_append, strData_append]
      simp only [List.length_append, List.length_cons] at iht ⊢
      omega

theorem jsonRoundTrip (m : List (String × String)) (hm : wfMeta m) :
    jsonParse (jsonDumps m ++ "\n") = some m := by
  cases m with
  | nil => decide
  | cons kv rest =>
    have hjd : (jsonDumps (kv :: rest) ++ "\n").data
        = lbrace :: '\n' :: ((joinWith ",\n" ((kv :: rest).map jsonItem)).data
            ++ ('\n' :: rbrace :: ['\n'])) := by
      show (("\x7b\n" ++ joinWith ",\n" ((kv :: rest).map jsonItem) ++ "\n\x7d") ++ "\n").data = _
      rw [strData_append, strData_append, strData_append]
      simp [lbrace, rbrace, List.append_assoc]
    have hnn : ∀ x ∈ (kv :: rest).map jsonItem, x.data ≠ [] := by
      intro x hx
      obtain ⟨kv2, hkv2, rfl⟩ := List.mem_map.mp hx
      rw [jsonItem_data]
      simp
    have hlen : (kv :: rest).length ≤ (jsonDumps (kv :: rest) ++ "\n").length + 1 := by
      have h1 := joinWith_length_le ",\n" ((kv :: rest).map jsonItem) hnn
      have h2 : (jsonDumps (kv :: rest) ++ "\n").length
          = (joinWith ",\n" ((kv :: rest).map jsonItem)).data.length + 5 := by
        rw [show (jsonDumps (kv :: rest) ++ "\n").length
            = (jsonDumps (kv :: rest) ++ "\n").data.length from rfl, hjd]
        simp [List.length_append]
      rw [List.length_map] at h1
      omega
    have hpairs := jsonPairsGo_roundTrip (kv :: rest)
      ((jsonDumps (kv :: rest) ++ "\n").length + 1) [] ['\n'] hm (by simp) hlen (by simp)
    simp only [List.nil_append] at hpairs
    obtain ⟨J, hJ⟩ : ∃ J, (joinWith ",\n" ((kv :: rest).map jsonItem)).data
        = ' ' :: ' ' :: '"' :: J := by
      cases rest with
      | nil =>
        refine ⟨kv.1.data ++ ('"' :: ':' :: ' ' :: '"' :: (kv.2.data ++ ['"'])), ?_⟩
        simp only [List.map_cons, List.map_nil]
        rw [show joinWith ",\n" [jsonItem kv] = jsonItem kv from rfl, jsonItem_data]
      | cons q t =>
        refine ⟨(kv.1.data ++ ('"' :: ':' :: ' ' :: '"' :: (kv.2.data ++ ['"'])))
          ++ ((",\n" : String).data
            ++ (joinWith ",\n" (jsonItem q :: t.map jsonItem)).data), ?_⟩
        simp only [List.map_cons]
        rw [joinWith_cons_of_ne_nil _ _ (by simp), strData_append, strData_append,
          jsonItem_data]
        simp [List.append_assoc]
    have hwsn : isWsChar '\n' = true := by decide
    have hwss : isWsChar ' ' = true := by decide
    have hwsq : isWsChar '"' = false := by decide
    have hwsl : isWsChar lbrace = false := by decide
    have hskipJ : skipWsL ((joinWith ",\n" ((kv :: rest).map jsonItem)).data
        ++ ('\n' :: rbrace :: ['\n'])) = '"' :: (J ++ ('\n' :: rbrace :: ['\n'])) := by
      rw [hJ]
      simp only [List.cons_append]
      rw [skipWsL_ws_cons hwss, skipWsL_ws_cons hwss, skipWsL_nonws_cons hwsq]
    have hgo : jsonPairsGo ((jsonDumps (kv :: rest) ++ "\n").length + 1)
        ('"' :: (J ++ ('\n' :: rbrace :: ['\n']))) = some (kv :: rest, ['\n']) := by
      rw [← hskipJ, jsonPairsGo_skipWsL]
      exact hpairs
    unfold jsonParse
    rw [hjd]
    rw [skipWsL_nonws_cons hwsl]
    simp only []
    rw [skipWsL_ws_cons hwsn]
    rw [hskipJ]
    simp only []
    rw [if_pos trivial]
    rw [if_neg (by decide)]
    rw [hgo]
    show (if skipWsL ['\n'] = [] then some (kv :: rest) else none) = some (kv :: rest)
    rw [if_pos (show skipWsL ['\n'] = [] from rfl)]

/-- Splitting at an explicit separator occurrence splits around it. -/
theorem splitCharsOn_append_sep (sep : Char) (a b : List Char) :
    splitCharsOn sep (a ++ sep :: b) = splitCharsOn sep a ++ splitCharsOn sep b := by
  induction a with
  | nil => simp [splitCharsOn]
  | cons c r ih =>
    by_cases h : c = sep
    · subst h
      simp [splitCharsOn, ih]
    · simp only [List.cons_append, splitCharsOn, if_neg h]
      rw [List.append_eq, ih]
      cases hr : splitCharsOn sep r with
      | nil => exact absurd hr (splitCharsOn_ne_nil sep r)
      | cons hh tt => rfl

/-- No chunk produced by `splitCharsOn` contains the separator. -/
theorem splitCharsOn_no_sep (sep : Char) (d : List Char) :
    ∀ x ∈ splitCharsOn sep d, sep ∉ x := by
  induction d with
  | nil =>
    intro x hx
    simp [splitCharsOn] at hx
    simp [hx]
  | cons c r ih =>
    intro x hx
    by_cases h : c = sep
    · subst h
      simp only [splitCharsOn, if_pos rfl] at hx
      rcases List.mem_cons.mp hx with h2 | h2
      · simp [h2]
      · exact ih x h2
    · simp only [splitCharsOn, if_neg h] at hx
      cases hr : splitCharsOn sep r with
      | nil => exact absurd hr (splitCharsOn_ne_nil sep r)
      | cons hh tt =>
        rw [hr] at hx
        rcases List.mem_cons.mp hx with h2 | h2
        · subst h2
          intro hmem
          rcases List.mem_cons.mp hmem with h3 | h3
          · exact h h3.symm
          · exact ih hh (hr ▸ List.mem_cons_self hh tt) h3
        · exact ih x (hr ▸ List.mem_cons_of_mem hh h2)

/-- Lines produced by `splitLines` contain no newline. -/
theorem splitLines_no_nl (s : String) : ∀ x ∈ splitLines s, ∀ c ∈ x.data, c ≠ '\n' := by
  intro x hx
  unfold splitLines at hx
  obtain ⟨chunk, hchunk, rfl⟩ := List.mem_map.mp hx
  intro c hc heq
  subst heq
  exact splitCharsOn_no_sep '\n' s.data chunk hchunk hc

theorem splitLines_ne_nil (s : String) : splitLines s ≠ [] := by
  unfold splitLines
  simp [splitCharsOn_ne_nil]

/-- Lines produced by `pySplitlines` contain no newline. -/
theorem pySplitlines_no_nl (s : String) : ∀ x ∈ pySplitlines s, ∀ c ∈ x.data, c ≠ '\n' := by
  intro x hx
  unfold pySplitlines at hx
  by_cases h : s = ""
  · simp [h] at hx
  · rw [if_neg h] at hx
    by_cases hl : (splitLines s).getLast? = some ""
    · simp only [hl, if_pos rfl] at hx
      exact splitLines_no_nl s x (List.dropLast_subset _ hx)
    · simp only [if_neg hl] at hx
      exact splitLines_no_nl s x hx

/-- A nonempty string splits into at least one physical line. -/
theorem pySplitlines_ne_nil {s : String} (h : s ≠ "") : pySplitlines s ≠ [] := by
  unfold pySplitlines
  rw [if_neg h]
  by_cases hl : (splitLines s).getLast? = some ""
  · simp only [hl, if_pos rfl]
    intro hcon
    cases hp : splitLines s with
    | nil => exact splitLines_ne_nil s hp
    | cons a t =>
      cases t with
      | nil =>
        rw [hp] at hl
        simp [List.getLast?] at hl
        have hj := joinWith_splitLines s
        rw [hp, hl] at hj
        exact h (hj.symm.trans rfl)
      | cons b t2 =>
        rw [hp] at hcon
        simp at hcon
  · simp only [if_neg hl]
    exact splitLines_ne_nil s

/-- `splitLines` inverts `joinWith "\n"` on nonempty lists of newline-free lines. -/
theorem splitLines_joinWith :
    ∀ ls : List String, ls ≠ [] → (∀ x ∈ ls, ∀ c ∈ x.data, c ≠ '\n') →
      splitLines (joinWith "\n" ls) = ls := by
  intro ls
  induction ls with
  | nil => intro hcon; exact absurd rfl hcon
  | cons a t ih =>
    intro _ h
    cases t with
    | nil => exact splitLines_single (h a (List.mem_cons_self a []))
    | cons b t2 =>
      rw [joinWith_cons_of_ne_nil _ _ (by simp)]
      unfold splitLines
      rw [strData_append, strData_append]
      rw [show ("\n" : String).data = ['\n'] from rfl]
      rw [List.append_assoc, List.singleton_append, splitCharsOn_append_sep]
      rw [List.map_append]
      have ha := splitLines_single (h a (List.mem_cons_self a (b :: t2)))
      unfold splitLines at ha
      rw [ha]
      have hb := ih (by simp) (fun x hx => h x (List.mem_cons_of_mem a hx))
      unfold splitLines at hb
      rw [hb]
      rfl

/-- `takeWhile` passes over an all-satisfying prefix (any element type). -/
theorem takeWhile_append_allG {α : Type} {p : α → Bool} {l : List α} (t : List α)
    (h : ∀ c ∈ l, p c = true) : (l ++ t).takeWhile p = l ++ t.takeWhile p := by
  induction l with
  | nil => rfl
  | cons c rest ih =>
    have hc := h c (List.mem_cons_self c rest)
    simp [List.takeWhile_cons, hc, ih (fun x hx => h x (List.mem_cons_of_mem c hx))]

/-- `dropWhile` passes over an all-satisfying prefix (any element type). -/
theorem dropWhile_append_allG {α : Type} {p : α → Bool} {l : List α} (t : List α)
    (h : ∀ c ∈ l, p c = true) : (l ++ t).dropWhile p = t.dropWhile p := by
  induction l with
  | nil => rfl
  | cons c rest ih =>
    have hc := h c (List.mem_cons_self c rest)
    simp [List.dropWhile_cons, hc, ih (fun x hx => h x (List.mem_cons_of_mem c hx))]

/-- Dropping from a list ending in a kept element keeps that last element. -/
theorem dropWhile_append_last {p : Char → Bool} {c : Char} (hc : p c = false) :
    ∀ l : List Char, ∃ u, (l ++ [c]).dropWhile p = u ++ [c] := by
  intro l
  induction l with
  | nil => exact ⟨[], by simp [List.dropWhile_cons, hc]⟩
  | cons a t ih =>
    by_cases ha : p a = true
    · obtain ⟨u, hu⟩ := ih
      exact ⟨u, by simp [List.dropWhile_cons, ha, hu]⟩
    · exact ⟨a :: t, by simp [List.dropWhile_cons, ha]⟩

/-- Stripping a string whose first character is not whitespace keeps it. -/
theorem trimChars_cons_nonws {c : Char} (hc : isWsChar c = false) (t : List Char) :
    ∃ u, trimChars (c :: t) = c :: u := by
  unfold trimChars
  rw [List.dropWhile_cons, if_neg (by simp [hc])]
  rw [show (c :: t).reverse = t.reverse ++ [c] by simp]
  obtain ⟨u, hu⟩ := dropWhile_append_last hc t.reverse
  exact ⟨u.reverse, by rw [hu]; simp⟩

/-- A string whose first character is not whitespace strips to a nonempty
string. -/
theorem pyStrip_ne_empty_of_head {x : String} {c : Char} {t : List Char}
    (hd : x.data = c :: t) (hc : isWsChar c = false) : pyStrip x ≠ "" := by
  unfold pyStrip
  rw [hd]
  obtain ⟨u, hu⟩ := trimChars_cons_nonws hc t
  rw [hu, Ne, strMk_eq_empty_iff]
  simp

/-- A string headed by a character other than a backtick does not open a
fence. -/
theorem strStarts_fence_false {x : String} {c : Char} {t : List Char}
    (hd : x.data = c :: t) (hc : c ≠ '`') : strStarts x "```" = false := by
  unfold strStarts
  rw [hd, show ("```" : String).data = ['`', '`', '`'] from rfl]
  have hb : ('`' == c) = false := beq_eq_false_iff_ne.mpr (fun hcon => hc hcon.symm)
  simp [List.isPrefixOf, hb]

/-- A string headed by a character other than `>` does not open a quote. -/
theorem strStarts_gt_false {x : String} {c : Char} {t : List Char}
    (hd : x.data = c :: t) (hc : c ≠ '>') : strStarts x ">" = false := by
  unfold strStarts
  rw [hd, show (">" : String).data = ['>'] from rfl]
  have hb : ('>' == c) = false := beq_eq_false_iff_ne.mpr (fun hcon => hc hcon.symm)
  simp [List.isPrefixOf, hb]

/-- A quote line starts with the `>` character. -/
theorem strStarts_gt_head {x : String} (h : strStarts x ">" = true) :
    ∃ t, x.data = '>' :: t := by
  unfold strStarts at h
  rw [show (">" : String).data = ['>'] from rfl] at h
  cases hd : x.data with
  | nil => rw [hd] at h; simp [List.isPrefixOf] at h
  | cons c t =>
    rw [hd] at h
    simp [List.isPrefixOf] at h
    exact ⟨t, by rw [← h]⟩

theorem tokenizeGo_nil (f : Nat) : tokenizeGo f [] = [] := by
  cases f <;> rfl

/-- Tokenizer step: a blank line. -/
theorem tok_blank (f : Nat) (rest : List String) :
    tokenizeGo (f + 1) ("" :: rest) = .blankLine :: tokenizeGo f rest := rfl

/-- Tokenizer step: the fixed `## user` heading line. -/
theorem tok_user (f : Nat) (rest : List String) :
    tokenizeGo (f + 1) ("## user" :: rest) = .heading 2 "user" :: tokenizeGo f rest := rfl

/-- Tokenizer step: the one-line quote `> hi` followed by a blank line. -/
theorem tok_onequote (f : Nat) (rest : List String) :
    tokenizeGo (f + 1) ("> hi" :: "" :: rest)
      = .blockQuote "> hi" :: tokenizeGo f ("" :: rest) := rfl

/-- Tokenizer step: a level-2 heading line over an arbitrary title. -/
theorem tok_heading2 (f : Nat) (s : String) (rest : List String) :
    tokenizeGo (f + 1) ((⟨'#' :: '#' :: ' ' :: s.data⟩ : String) :: rest)
      = .heading 2 s :: tokenizeGo f rest := by
  have h1 : pyStrip (⟨'#' :: '#' :: ' ' :: s.data⟩ : String) ≠ "" :=
    pyStrip_ne_empty_of_head rfl (by decide)
  have h2 : strStarts (⟨'#' :: '#' :: ' ' :: s.data⟩ : String) "```" = false :=
    strStarts_fence_false rfl (by decide)
  have h3 : strStarts (⟨'#' :: '#' :: ' ' :: s.data⟩ : String) ">" = false :=
    strStarts_gt_false rfl (by decide)
  have h4 : headingOfLine (⟨'#' :: '#' :: ' ' :: s.data⟩ : String) = some (2, s) := by
    simp [headingOfLine, List.takeWhile_cons]
  simp only [tokenizeGo]
  rw [if_neg h1, if_neg (by simp [h2]), if_neg (by simp [h3]), h4]

/-- Tokenizer step: the metadata fence, collecting the serialized JSON lines
up to the closing fence. -/
theorem tok_fence (f : Nat) (inner rest : List String)
    (h : ∀ x ∈ inner, strStarts x "```" = false) :
    tokenizeGo (f + 1) ("```json msg-metadata" :: (inner ++ "```" :: rest))
      = .blockCode "json msg-metadata" (joinWith "\n" inner ++ "\n") :: tokenizeGo f rest := by
  simp only [tokenizeGo]
  rw [if_neg (by decide), if_pos (by decide)]
  have hp : ∀ x ∈ inner, (fun x => (decide (¬ strStarts x "```" = true))) x = true := by
    intro x hx
    simp [h x hx]
  rw [takeWhile_append_allG _ hp, dropWhile_append_allG _ hp]
  simp [List.takeWhile_cons, List.dropWhile_cons,
    show strStarts "```" "```" = true from rfl,
    show pyStrip (strDrop "```json msg-metadata" 3) = "json msg-metadata" from rfl]

/-- Tokenizer step: a maximal run of quote lines followed by a blank line. -/
theorem tok_quoterun (f : Nat) (qs rest : List String)
    (hq : ∀ x ∈ qs, strStarts x ">" = true) (hne : qs ≠ []) :
    tokenizeGo (f + 1) (qs ++ "" :: rest)
      = .blockQuote (joinWith "\n" qs) :: tokenizeGo f ("" :: rest) := by
  cases qs with
  | nil => exact absurd rfl hne
  | cons q0 qt =>
    obtain ⟨t0, ht0⟩ := strStarts_gt_head (hq q0 (List.mem_cons_self q0 qt))
    have h1 : pyStrip q0 ≠ "" := pyStrip_ne_empty_of_head ht0 (by decide)
    have h2 : strStarts q0 "```" = false := strStarts_fence_false ht0 (by decide)
    have h3 : strStarts q0 ">" = true := hq q0 (List.mem_cons_self q0 qt)
    rw [List.cons_append]
    simp only [tokenizeGo]
    rw [if_neg h1, if_neg (by simp [h2]), if_pos (by simp [h3])]
    have hp : ∀ x ∈ q0 :: qt, (fun x => strStarts x ">") x = true := hq
    rw [show q0 :: (qt ++ "" :: rest) = (q0 :: qt) ++ "" :: rest from rfl]
    rw [takeWhile_append_allG _ hp, dropWhile_append_allG _ hp]
    simp [List.takeWhile_cons, List.dropWhile_cons, show strStarts "" ">" = false from rfl]

/-- Tokenization of the appended-document line list: the base document's
heading and quote, then the new heading, its metadata fence and its quoted
content. -/
theorem tokenizeAppendedDoc (k : Nat) (s : String) (JDlines Qlines : List String)
    (hJD : ∀ x ∈ JDlines, strStarts x "```" = false)
    (hQ : ∀ x ∈ Qlines, strStarts x ">" = true) (hQne : Qlines ≠ []) :
    tokenizeGo (k + 11)
        ("## user" :: "" :: "> hi" :: "" :: "" :: (⟨'#' :: '#' :: ' ' :: s.data⟩ : String)
          :: "" :: "```json msg-metadata"
          :: (JDlines ++ "```" :: ("" :: (Qlines ++ "" :: []))))
      = [.heading 2 "user", .blankLine, .blockQuote "> hi", .blankLine, .blankLine,
         .heading 2 s, .blankLine,
         .blockCode "json msg-metadata" (joinWith "\n" JDlines ++ "\n"),
         .blankLine, .blockQuote (joinWith "\n" Qlines), .blankLine] := by
  rw [show k + 11 = (k + 10) + 1 from rfl, tok_user]
  rw [show k + 10 = (k + 9) + 1 from rfl, tok_blank]
  rw [show k + 9 = (k + 8) + 1 from rfl, tok_onequote]
  rw [show k + 8 = (k + 7) + 1 from rfl, tok_blank]
  rw [show k + 7 = (k + 6) + 1 from rfl, tok_blank]
  rw [show k + 6 = (k + 5) + 1 from rfl, tok_heading2]
  rw [show k + 5 = (k + 4) + 1 from rfl, tok_blank]
  rw [show k + 4 = (k + 3) + 1 from rfl, tok_fence _ _ _ hJD]
  rw [show k + 3 = (k + 2) + 1 from rfl, tok_blank]
  rw [show k + 2 = (k + 1) + 1 from rfl, tok_quoterun _ _ _ hQ hQne]
  rw [tok_blank, tokenizeGo_nil]

/-- Physical line decomposition of the appended document. -/
theorem splitLines_appended (s c : String) (m : List (String × String))
    (hsn : ∀ ch ∈ s.data, ch ≠ '\n') :
    splitLines (append_message "## user\n\n> hi\n" ⟨s, c, m⟩)
      = "## user" :: "" :: "> hi" :: "" :: "" :: (⟨'#' :: '#' :: ' ' :: s.data⟩ : String)
        :: "" :: "```json msg-metadata"
        :: (splitLines (jsonDumps m) ++ "```"
            :: ("" :: (splitLines (addQuoteLevel c) ++ "" :: []))) := by
  have hd : (append_message "## user\n\n> hi\n" ⟨s, c, m⟩).data
      = "## user".data ++ '\n' :: ([] ++ '\n' :: ("> hi".data ++ '\n'
          :: ([] ++ '\n' :: ([] ++ '\n' :: (('#' :: '#' :: ' ' :: s.data) ++ '\n'
          :: ([] ++ '\n' :: ("```json msg-metadata".data ++ '\n'
          :: ((jsonDumps m).data ++ '\n' :: ("```".data ++ '\n'
          :: ([] ++ '\n' :: ((addQuoteLevel c).data ++ '\n' :: []))))))))))) := by
    simp only [append_message, addQuoteLevel, strData_append]
    simp [List.cons_append, List.append_assoc]
  have hhash : ∀ ch ∈ ('#' :: '#' :: ' ' :: s.data), ch ≠ '\n' := by
    intro ch hch
    rcases List.mem_cons.mp hch with rfl | hch
    · decide
    rcases List.mem_cons.mp hch with rfl | hch
    · decide
    rcases List.mem_cons.mp hch with rfl | hch
    · decide
    exact hsn ch hch
  unfold splitLines
  rw [hd]
  simp only [splitCharsOn_append_sep]
  rw [splitCharsOn_all_ne hhash]
  simp only [show splitCharsOn '\n' "## user".data = ["## user".data] from rfl,
    show splitCharsOn '\n' ([] : List Char) = [[]] from rfl,
    show splitCharsOn '\n' "> hi".data = ["> hi".data] from rfl,
    show splitCharsOn '\n' "```json msg-metadata".data = ["```json msg-metadata".data] from rfl,
    show splitCharsOn '\n' "```".data = ["```".data] from rfl]
  simp [List.map_append]

/-- Characters of a split chunk come from the split list. -/
theorem splitCharsOn_chars_sub (sep : Char) :
    ∀ d : List Char, ∀ x ∈ splitCharsOn sep d, ∀ c ∈ x, c ∈ d := by
  intro d
  induction d with
  | nil =>
    intro x hx
    simp [splitCharsOn] at hx
    simp [hx]
  | cons a r ih =>
    intro x hx c hc
    by_cases h : a = sep
    · subst h
      simp only [splitCharsOn, if_pos rfl] at hx
      rcases List.mem_cons.mp hx with h2 | h2
      · subst h2; simp at hc
      · exact List.mem_cons_of_mem a (ih x h2 c hc)
    · simp only [splitCharsOn, if_neg h] at hx
      cases hr : splitCharsOn sep r with
      | nil => exact absurd hr (splitCharsOn_ne_nil sep r)
      | cons hh tt =>
        rw [hr] at hx
        rcases List.mem_cons.mp hx with h2 | h2
        · subst h2
          rcases List.mem_cons.mp hc with h3 | h3
          · subst h3; exact List.mem_cons_self c r
          · exact List.mem_cons_of_mem a
              (ih hh (hr ▸ List.mem_cons_self hh tt) c h3)
        · exact List.mem_cons_of_mem a (ih x (hr ▸ List.mem_cons_of_mem hh h2) c hc)

/-- Joining backtick-free strings with `",\n"` stays backtick-free. -/
theorem joinWith_no_backtick :
    ∀ ls : List String, (∀ x ∈ ls, ∀ ch ∈ x.data, ch ≠ '`') →
      ∀ ch ∈ (joinWith ",\n" ls).data, ch ≠ '`' := by
  intro ls
  induction ls with
  | nil => intro _ ch hch; simp [joinWith] at hch
  | cons a t ih =>
    intro h
    cases t with
    | nil => exact h a (List.mem_cons_self a [])
    | cons b t2 =>
      rw [joinWith_cons_of_ne_nil _ _ (by simp)]
      exact forall_chars_append
        (forall_chars_append (h a (List.mem_cons_self a (b :: t2))) (by decide))
        (ih (fun x hx => h x (List.mem_cons_of_mem a hx)))

/-- The serialized metadata of a well-formed mapping contains no backtick. -/
theorem jsonDumps_no_backtick (m : List (String × String)) (hm : wfMeta m) :
    ∀ ch ∈ (jsonDumps m).data, ch ≠ '`' := by
  cases m with
  | nil => decide
  | cons kv rest =>
    show ∀ ch ∈ ("\x7b\n" ++ joinWith ",\n" ((kv :: rest).map jsonItem) ++ "\n\x7d").data,
      ch ≠ '`'
    refine forall_chars_append (forall_chars_append (by decide) ?_) (by decide)
    refine joinWith_no_backtick _ ?_
    intro x hx
    obtain ⟨kv2, hkv2, rfl⟩ := List.mem_map.mp hx
    obtain ⟨hk, hv⟩ := hm kv2 hkv2
    show ∀ ch ∈ ("  " ++ ("\"" ++ kv2.1 ++ "\"") ++ ": " ++ ("\"" ++ kv2.2 ++ "\"")).data,
      ch ≠ '`'
    refine forall_chars_append (forall_chars_append (forall_chars_append (by decide) ?_)
      (by decide)) ?_
    · exact forall_chars_append (forall_chars_append (by decide)
        (fun ch hch => (hk ch hch).2.2)) (by decide)
    · exact forall_chars_append (forall_chars_append (by decide)
        (fun ch hch => (hv ch hch).2.2)) (by decide)

/-- A string headed by `>` opens a quote. -/
theorem strStarts_gt_true {x : String} {t : List Char} (hd : x.data = '>' :: t) :
    strStarts x ">" = true := by
  unfold strStarts
  rw [hd, show (">" : String).data = ['>'] from rfl]
  simp [List.isPrefixOf]

/-- No line of the serialized metadata opens a fence. -/
theorem jsonDumps_lines_no_fence (m : List (String × String)) (hm : wfMeta m) :
    ∀ x ∈ splitLines (jsonDumps m), strStarts x "```" = false := by
  intro x hx
  cases hd : x.data with
  | nil =>
    unfold strStarts
    rw [hd]
    rfl
  | cons ch t =>
    refine strStarts_fence_false hd ?_
    obtain ⟨chunk, hchunk, rfl⟩ := List.mem_map.mp hx
    have hmem : ch ∈ chunk := by
      have : (⟨chunk⟩ : String).data = chunk := rfl
      rw [this] at hd
      rw [hd]
      exact List.mem_cons_self ch t
    exact jsonDumps_no_backtick m hm ch
      (splitCharsOn_chars_sub '\n' (jsonDumps m).data chunk hchunk ch hmem)

/-- The quoted content splits back into exactly its `"> "`-prefixed lines. -/
theorem splitLines_addQuoteLevel (c : String) (hc : c ≠ "") :
    splitLines (addQuoteLevel c) = (pySplitlines c).map ("> " ++ ·) := by
  unfold addQuoteLevel
  refine splitLines_joinWith _ ?_ ?_
  · simp [pySplitlines_ne_nil hc]
  · intro x hx ch hch hcon
    obtain ⟨y, hy, rfl⟩ := List.mem_map.mp hx
    rw [strData_append] at hch
    rcases List.mem_append.mp hch with h | h
    · subst hcon; revert h; decide
    · exact pySplitlines_no_nl c y hy ch h hcon

/-- Every line of the quoted content opens a quote. -/
theorem addQuoteLevel_lines_quote (c : String) (hc : c ≠ "") :
    ∀ x ∈ splitLines (addQuoteLevel c), strStarts x ">" = true := by
  rw [splitLines_addQuoteLevel c hc]
  intro x hx
  obtain ⟨y, hy, rfl⟩ := List.mem_map.mp hx
  exact strStarts_gt_true (t := ' ' :: y.data) (by rw [strData_append]; rfl)

theorem walk_nil (f : Nat) (cp : Bool) (doc : ParsedDocument) :
    walkGo f [] cp doc = doc := by
  cases f <;> rfl

theorem walk_blank (f : Nat) (rest : List MdNode) (cp : Bool) (doc : ParsedDocument) :
    walkGo (f + 1) (.blankLine :: rest) cp doc = walkGo f rest cp doc := rfl

/-- Walk step: a heading directly followed by its quoted content. -/
theorem walk_heading_quote (f : Nat) (t q : String) (rest : List MdNode) (cp : Bool)
    (doc : ParsedDocument) :
    walkGo (f + 1) (.heading 2 t :: .blankLine :: .blockQuote q :: rest) cp doc
      = walkGo f rest true
          { doc with conversation := doc.conversation ++ [⟨pyStrip t, q, []⟩],
                     errors := doc.errors ++ [] } := rfl

/-- Walk step: a heading with a metadata fence and quoted content. -/
theorem walk_heading_meta_quote (f : Nat) (t raw q : String) (meta : List (String × String))
    (hjp : jsonParse raw = some meta) (rest : List MdNode) (cp : Bool)
    (doc : ParsedDocument) :
    walkGo (f + 1) (.heading 2 t :: .blankLine
        :: .blockCode "json msg-metadata" raw :: .blankLine :: .blockQuote q :: rest) cp doc
      = walkGo f rest true
          { doc with conversation := doc.conversation ++ [⟨pyStrip t, q, meta⟩],
                     errors := doc.errors ++ [] } := by
  have hsub : listContainsSub "msg-metadata".data "json msg-metadata".data = true := by decide
  simp only [walkGo, dropBlanks, List.dropWhile_cons, hsub, hjp]
  simp
  rw [if_pos (by decide : listContainsSub
    ['m','s','g','-','m','e','t','a','d','a','t','a']
    ['j','s','o','n',' ','m','s','g','-','m','e','t','a','d','a','t','a'] = true)]
  simp [hjp]

/-- C5: amended round-trip for `append_message` then re-parse.  Appending a
message (newline-free stripped speaker, nonempty content, well-formed
metadata) to the one-message base document and re-parsing yields a new last
message whose speaker and metadata are identical to the source but whose
content is the source content with one more `"> "` block-quote marker on
every line (`addQuoteLevel`), because `append_message` quotes the content and
the parser's block-quote rule preserves the markers verbatim; the literal
claim (content identical) is refuted by `C5_counterexample_content_gains_marker`. -/
theorem C5_append_reparse_roundtrip (s c : String) (m : List (String × String))
    (hs : pyStrip s = s) (hsn : ∀ ch ∈ s.data, ch ≠ '\n') (hc : c ≠ "") (hm : wfMeta m) :
    (parseNoInc (append_message "## user\n\n> hi\n" ⟨s, c, m⟩)).conversation
      = [⟨"user", "> hi", []⟩, ⟨s, addQuoteLevel c, m⟩] := by
  have hQne : splitLines (addQuoteLevel c) ≠ [] := splitLines_ne_nil _
  have hJD := jsonDumps_lines_no_fence m hm
  have hQ := addQuoteLevel_lines_quote c hc
  have hsl := splitLines_appended s c m hsn
  have hjp := jsonRoundTrip m hm
  have htok : tokenize (append_message "## user\n\n> hi\n" ⟨s, c, m⟩)
      = [.heading 2 "user", .blankLine, .blockQuote "> hi", .blankLine, .blankLine,
         .heading 2 s, .blankLine,
         .blockCode "json msg-metadata" (jsonDumps m ++ "\n"),
         .blankLine, .blockQuote (addQuoteLevel c), .blankLine] := by
    show tokenizeGo
        ((splitLines (append_message "## user\n\n> hi\n" ⟨s, c, m⟩)).length + 1)
        (splitLines (append_message "## user\n\n> hi\n" ⟨s, c, m⟩)) = _
    rw [hsl]
    have hlen : ("## user" :: "" :: "> hi" :: "" :: ""
          :: (⟨'#' :: '#' :: ' ' :: s.data⟩ : String) :: "" :: "```json msg-metadata"
          :: (splitLines (jsonDumps m) ++ "```"
              :: ("" :: (splitLines (addQuoteLevel c) ++ "" :: [])))).length + 1
        = ((splitLines (jsonDumps m)).length + (splitLines (addQuoteLevel c)).length + 1)
            + 11 := by
      simp [List.length_append, List.length_cons]
      omega
    rw [hlen]
    have h0 := tokenizeAppendedDoc
      ((splitLines (jsonDumps m)).length + (splitLines (addQuoteLevel c)).length + 1)
      s (splitLines (jsonDumps m)) (splitLines (addQuoteLevel c)) hJD hQ hQne
    rw [joinWith_splitLines, joinWith_splitLines] at h0
    exact h0
  show (walkGo ((tokenize (append_message "## user\n\n> hi\n" ⟨s, c, m⟩)).length + 1)
      (tokenize (append_message "## user\n\n> hi\n" ⟨s, c, m⟩)) false {}).conversation = _
  rw [htok]
  simp only [List.length_cons, List.length_nil]
  rw [show (0 : Nat) + 1 + 1 + 1 + 1 + 1 + 1 + 1 + 1 + 1 + 1 + 1 + 1 = 11 + 1 from rfl]
  rw [walk_heading_quote]
  rw [show (11 : Nat) = 10 + 1 from rfl, walk_blank]
  rw [show (10 : Nat) = 9 + 1 from rfl, walk_blank]
  rw [show (9 : Nat) = 8 + 1 from rfl,
    walk_heading_meta_quote 8 s (jsonDumps m ++ "\n") (addQuoteLevel c) m hjp]
  rw [show (8 : Nat) = 7 + 1 from rfl, walk_blank, walk_nil]
  simp [hs, show pyStrip "user" = "user" from rfl]

/-- Witness for C5 at a concrete speaker, two-line content and one-pair
metadata. -/
theorem C5_append_reparse_roundtrip_witness :
    pyStrip "assistant" = "assistant"
      ∧ (parseNoInc (append_message "## user\n\n> hi\n"
            ⟨"assistant", "hello\nworld", [("k", "v")]⟩)).conversation
        = [⟨"user", "> hi", []⟩,
           ⟨"assistant", addQuoteLevel "hello\nworld", [("k", "v")]⟩] :=
  ⟨by decide,
   C5_append_reparse_roundtrip "assistant" "hello\nworld" [("k", "v")]
     (by decide) (by decide) (by decide) (by decide)⟩

/-- Witness for C6 at a concrete self-including file. -/
theorem C6_cycle_detection_witness :
    _resolve_inclusions [("/docs" ++ "/" ++ "self.md", "[include](" ++ "self.md" ++ ")")] 5
        ("[include](" ++ "self.md" ++ ")") ("/docs" ++ "/" ++ "self.md") "/docs" []
      = ("> **ERROR**: " ++ ("Circular inclusion detected: " ++ ("/docs" ++ "/" ++ "self.md")
            ++ " is already being processed."),
         ["Circular inclusion detected: " ++ ("/docs" ++ "/" ++ "self.md")
            ++ " is already being processed."]) :=
  (C6_cycle_detection "/docs" "self.md" (by decide) (by decide) (by decide) (by decide)
    (by decide)).1 5 (by decide)

end Domarkx
